import Mathlib

/-!
Verification of the `ObjectAllocator` fixed-size-block memory allocator
(`src/ObjectAllocator.cpp`).

The development shallowly embeds the allocator's pool mode.  Pages are
identified by their start address (a natural number); the per-block storage
that the allocator actually reads and writes (the free-list `Next` overlay,
the header bytes, and the two padding strips) is recorded in a `Block`
record held in an association list keyed by the block's object-storage
address.  The public operations `Allocate`/`Free` and the helpers
(`allocate_empty_page`, `segment_page`, `take_off_freelist`,
`put_on_freelist`, the `check_*` validators, `DumpMemoryInUse`,
`ValidatePages`) are transcribed from the source.  Pointer-arithmetic
validators (`check_out_of_page`, `check_wrong_offset`,
`check_bad_location`, `check_corruption` on raw memory) are additionally
given in a memory-parameterised form so that validation of pointers that
do not belong to any page can be analysed.

Pointers are modelled at the 64-bit build of the Makefile, so
`sizeof(void*) = 8`.  Statistics counters are C++ `unsigned` values; the
only operation where wraparound can matter in the scenarios analysed here
is the decrement, which is modelled exactly (`dec32`).  The repository
ships only `ObjectAllocator.cpp`; the declarations of `OAConfig`,
`OAStats`, `OAException`, `MemBlockInfo` and the sentinel constants live
in the missing `ObjectAllocator.h` and are modelled from the spec where
noted.
-/

/-- Modelled from the spec: padding fill sentinel (`PAD_PATTERN`, reference
value 0xFF), declared in the missing `ObjectAllocator.h`. -/
def PAD_PATTERN : ℕ := 0xFF

/-- Modelled from the spec: unallocated-page fill sentinel
(`UNALLOCATED_PATTERN`, reference value 0xAA). -/
def UNALLOCATED_PATTERN : ℕ := 0xAA

/-- Modelled from the spec: allocated-object fill sentinel
(`ALLOCATED_PATTERN`, reference value 0xBB). -/
def ALLOCATED_PATTERN : ℕ := 0xBB

/-- Modelled from the spec: freed-object fill sentinel (`FREED_PATTERN`,
reference value 0xCC). -/
def FREED_PATTERN : ℕ := 0xCC

/-- `sizeof(void*)` for the 64-bit build. -/
def ptrSize : ℕ := 8

/-- Decrement of a C++ 32-bit `unsigned` counter: wraps at zero.  For
counter values below `2^32` (every scenario analysed here) this is exactly
the behaviour of `x--`. -/
def dec32 (x : ℕ) : ℕ := if x = 0 then 2 ^ 32 - 1 else x - 1

/-- Modelled from the spec: the error-kind taxonomy of `OAException`
(declared in the missing `ObjectAllocator.h`). -/
inductive OAErr where
  | E_NO_MEMORY
  | E_NO_PAGES
  | E_BAD_BOUNDARY
  | E_MULTIPLE_FREE
  | E_CORRUPTED_BLOCK
  deriving DecidableEq, Repr

/-- Modelled from the spec: the four header variants of `OAConfig`. -/
inductive HBlockType where
  | hbNone
  | hbBasic
  | hbExtended
  | hbExternal
  deriving DecidableEq, Repr

/-- Modelled from the spec: the configuration bundle `OAConfig`
(declared in the missing `ObjectAllocator.h`).  `HBlockSize_` is
`HBlockInfo_.size_` and `HBlockAdditional_` is `HBlockInfo_.additional_`. -/
structure OAConfig where
  UseCPPMemManager_ : Bool
  ObjectsPerPage_ : ℕ
  MaxPages_ : ℕ
  DebugOn_ : Bool
  PadBytes_ : ℕ
  HBlockType_ : HBlockType
  HBlockSize_ : ℕ
  HBlockAdditional_ : ℕ
  deriving DecidableEq, Repr

/-- Modelled from the spec: the statistics bundle `OAStats` (declared in
the missing `ObjectAllocator.h`); counters start at zero. -/
structure OAStats where
  ObjectSize_ : ℕ
  PageSize_ : ℕ
  FreeObjects_ : ℕ
  ObjectsInUse_ : ℕ
  PagesInUse_ : ℕ
  MostObjects_ : ℕ
  Allocations_ : ℕ
  Deallocations_ : ℕ
  deriving DecidableEq, Repr

/-- `ObjectAllocator::calculate_block_size`: object size plus two padding
strips plus the header. -/
def calculate_block_size (os : ℕ) (c : OAConfig) : ℕ :=
  os + c.PadBytes_ * 2 + c.HBlockSize_

/-- `ObjectAllocator::calculate_page_size`: a leading page link pointer
followed by `ObjectsPerPage_` blocks. -/
def calculate_page_size (os : ℕ) (c : OAConfig) : ℕ :=
  ptrSize + calculate_block_size os c * c.ObjectsPerPage_

/-- `ObjectAllocator::create_offset`: where the blocks of a page start. -/
def create_offset (page : ℕ) : ℕ := page + ptrSize

/-- Start address of block `i` of the page at address `A` (the address the
traversals reach by repeatedly adding the block stride). -/
def blockStartA (os : ℕ) (c : OAConfig) (A i : ℕ) : ℕ :=
  create_offset A + calculate_block_size os c * i

/-- Object-storage address of block `i` of the page at `A`: block start
plus header plus left padding.  This is the address `make_block` computes
and the address `Allocate` hands to the client. -/
def objAddrA (os : ℕ) (c : OAConfig) (A i : ℕ) : ℕ :=
  blockStartA os c A i + c.HBlockSize_ + c.PadBytes_

/-- `ObjectAllocator::check_out_of_page`: the pointer is below the page
start or above `page + pageSize - sizeof(void*)`. -/
def check_out_of_page (os : ℕ) (c : OAConfig) (toCheck pageList : ℤ) : Bool :=
  toCheck < pageList || toCheck > pageList + (calculate_page_size os c : ℤ) - (ptrSize : ℤ)

/-- `ObjectAllocator::check_wrong_offset`: the offset of the pointer from
the page's first object-storage address is computed in `long long`, but
the modulo `% calculate_block_size()` converts both operands to the
64-bit unsigned `size_t` of this build, so a negative difference `d` is
tested as `(2^64 + d) mod stride` — modelled by reducing the difference
modulo `2^64` (a non-negative value) before the stride modulo. -/
def check_wrong_offset (os : ℕ) (c : OAConfig) (toCheck pageList : ℤ) : Bool :=
  let locationDifference : ℤ :=
    toCheck - (pageList + (ptrSize : ℤ) + (c.HBlockSize_ : ℤ) + (c.PadBytes_ : ℤ))
  locationDifference % (2 ^ 64) % (calculate_block_size os c : ℤ) != 0

/-- Loop body of `ObjectAllocator::check_bad_location`: `toThrow` is the
accumulator; a page failing one of the two checks records `true` and moves
on, a page passing both returns `false` immediately. -/
def check_bad_location_go (os : ℕ) (c : OAConfig) (toCheck : ℤ) :
    Bool → List ℤ → Bool
  | toThrow, [] => toThrow
  | _, A :: rest =>
    if check_out_of_page os c toCheck A || check_wrong_offset os c toCheck A then
      check_bad_location_go os c toCheck true rest
    else
      false

/-- `ObjectAllocator::check_bad_location` over the list of page start
addresses: true exactly when the pointer should signal `E_BAD_BOUNDARY`. -/
def check_bad_location (os : ℕ) (c : OAConfig) (toCheck : ℤ) (pages : List ℤ) : Bool :=
  check_bad_location_go os c toCheck false pages

/-- `ObjectAllocator::check_corruption` reading raw memory: some byte of
the left padding (at `toCheck - PadBytes_ + i`) or of the right padding
(at `toCheck + ObjectSize_ + i`) differs from the pad sentinel. -/
def check_corruption_mem (mem : ℤ → ℕ) (os : ℕ) (c : OAConfig) (toCheck : ℤ) : Bool :=
  (List.range c.PadBytes_).any fun i =>
    mem (toCheck - (c.PadBytes_ : ℤ) + (i : ℤ)) != PAD_PATTERN ||
    mem (toCheck + (os : ℤ) + (i : ℤ)) != PAD_PATTERN

/-- `ObjectAllocator::check_multiple_free` given the contents of the free
list as the finite list of node addresses the C++ loop visits. -/
def check_multiple_free_list (freeL : List ℤ) (toCheck : ℤ) : Bool :=
  freeL.contains toCheck

/-- `ObjectAllocator::check_freelist`, memory-parameterised form: the
debug-mode validation that `Free` runs before touching any block state.
The corruption check runs first (only when padding is configured), then
the double-free scan, then the boundary check; the first failure is the
error signalled. -/
def check_freelist_mem (mem : ℤ → ℕ) (os : ℕ) (c : OAConfig)
    (freeL : List ℤ) (pages : List ℤ) (toCheck : ℤ) : Option OAErr :=
  if c.PadBytes_ != 0 && check_corruption_mem mem os c toCheck then
    some .E_CORRUPTED_BLOCK
  else if check_multiple_free_list freeL toCheck then
    some .E_MULTIPLE_FREE
  else if check_bad_location os c toCheck pages then
    some .E_BAD_BOUNDARY
  else
    none

/-- Modelled from the spec: the separately heap-allocated metadata record
of the external header variant (`MemBlockInfo`, declared in the missing
`ObjectAllocator.h`): allocation number, in-use flag, optional label. -/
structure ExtRecord where
  alloc_num : ℕ
  in_use : Bool
  label : Option String
  deriving DecidableEq, Repr

/-- Contents of a block's header area.  `uninit` stands for raw
never-written bytes (used only by configurations whose header is never
read).  The extended variant's use counter is a C++ `unsigned short`.
For the external variant the slot holds a pointer to the metadata record
(or zeros); `inUseByte` records the outcome of `check_leak_in_header`'s
non-dereferencing read of that slot — a byte of the stored pointer value,
fixed when the record is allocated; a zeroed slot reads false. -/
inductive BlockHdr where
  | uninit
  | basic (allocNum : ℕ) (flag : Bool)
  | extended (useCount allocNum : ℕ) (flag : Bool)
  | externalRef (info : Option ExtRecord) (inUseByte : Bool)
  deriving DecidableEq, Repr

/-- The parts of a block's storage the allocator reads or writes: the
free-list `Next` overlay occupying the first pointer-sized bytes of the
object storage, the header area, and the two padding strips (one byte
value per padding byte).  The rest of the object storage (the client's
bytes, including the debug fill patterns) is never read by the allocator
and is not tracked. -/
structure Block where
  next : Option ℕ
  hdr : BlockHdr
  leftPad : List ℕ
  rightPad : List ℕ
  deriving DecidableEq, Repr

/-- Association-list lookup keyed by block object-storage address; stands
for reading that block's storage. -/
def alookup (a : ℕ) : List (ℕ × Block) → Option Block
  | [] => none
  | kv :: rest => if kv.1 = a then some kv.2 else alookup a rest

/-- Association-list update keyed by block object-storage address; stands
for writing that block's storage. -/
def aupdate (a : ℕ) (f : Block → Block) : List (ℕ × Block) → List (ℕ × Block)
  | [] => []
  | kv :: rest => (if kv.1 = a then (kv.1, f kv.2) else kv) :: aupdate a f rest

/-- The allocator's state in pool mode: configuration, statistics, the
page list (start addresses, newest first, `PageList_`), the storage of
every block keyed by its object-storage address, and the free-list head
(`FreeList_`). -/
structure AllocState where
  config : OAConfig
  stats : OAStats
  pageList : List ℕ
  blocks : List (ℕ × Block)
  freeList : Option ℕ
  deriving DecidableEq, Repr

/-- `ObjectAllocator::configure_header`: writes a block's header for the
`!allocated && !freed` (first use), `allocated`, and `freed` transitions.
`allocNum` is the value of `stats.Allocations_` at the call.  The basic
variant zeroes the header and then writes the allocation number and the
in-use flag when allocating; the extended variant preserves its use
counter across frees; the external variant allocates its record on
allocate (`recByte` is the byte of the fresh record's address that the
slot-reinterpreting leak check will later read) and destroys it on
free, zeroing the slot. -/
def configure_header (c : OAConfig) (allocNum : ℕ) (lbl : Option String)
    (recByte : Bool) (allocated freed : Bool) (b : Block) : Block :=
  match c.HBlockType_ with
  | .hbNone => b
  | .hbBasic =>
    if allocated then { b with hdr := .basic allocNum true }
    else { b with hdr := .basic 0 false }
  | .hbExtended =>
    if !allocated && !freed then { b with hdr := .extended 0 0 false }
    else if allocated then
      match b.hdr with
      | .extended uc _ _ => { b with hdr := .extended ((uc + 1) % 2 ^ 16) allocNum true }
      | _ => { b with hdr := .extended (1 % 2 ^ 16) allocNum true }
    else
      match b.hdr with
      | .extended uc _ _ => { b with hdr := .extended uc 0 false }
      | _ => { b with hdr := .extended 0 0 false }
  | .hbExternal =>
    if !allocated && !freed then { b with hdr := .externalRef none false }
    else if allocated then
      { b with hdr := .externalRef (some ⟨allocNum, true, lbl⟩) recByte }
    else
      { b with hdr := .externalRef none false }

/-- `ObjectAllocator::check_leak_in_header`.  For the basic and extended
variants the last header byte — exactly the in-use flag written by
`configure_header` — is read.  For the external variant the source
reinterprets the header slot itself as `MemBlockInfo`
(`reinterpret_cast<MemBlockInfo *>(node)`) and reads `info->in_use`
without dereferencing the stored record pointer: the value read is a
byte of that pointer value, recorded in the header's `inUseByte` field
when the record was allocated.  Modelled from the spec: the layout of
`MemBlockInfo` lives in the missing `ObjectAllocator.h`; the model
assumes only that the inspected byte lies within the pointer-sized
slot, so a zeroed (freed or never-used) slot reads false. -/
def check_leak_in_header (c : OAConfig) (b : Block) : Bool :=
  match c.HBlockType_ with
  | .hbExternal =>
    match b.hdr with
    | .externalRef _ byteRead => byteRead
    | _ => false
  | _ =>
    match b.hdr with
    | .basic _ flag => flag
    | .extended _ _ flag => flag
    | _ => false

/-- `ObjectAllocator::check_corruption` at a block address of the state:
reads the recorded padding bytes of the block stored there.  (A pointer
that is not a block address would read unmodelled memory; the
memory-parameterised `check_corruption_mem` covers that case.) -/
def check_corruption_at (s : AllocState) (p : ℕ) : Bool :=
  match alookup p s.blocks with
  | some b =>
    (List.range s.config.PadBytes_).any fun i =>
      b.leftPad.getD i 0 != PAD_PATTERN || b.rightPad.getD i 0 != PAD_PATTERN
  | none => false

/-- The free-list scan of `ObjectAllocator::check_multiple_free`,
following `Next` links from the head.  The C++ loop runs until the null
link; the fuel `s.blocks.length + 1` suffices for every state whose free
list is an acyclic chain of blocks (on a cyclic list the C++ loop would
not terminate). -/
def walkFree (blocks : List (ℕ × Block)) : ℕ → Option ℕ → ℕ → Bool
  | 0, _, _ => false
  | _ + 1, none, _ => false
  | fuel + 1, some a, t =>
    if a = t then true
    else walkFree blocks fuel ((alookup a blocks).bind Block.next) t

/-- `ObjectAllocator::check_multiple_free` on a state. -/
def check_multiple_free (s : AllocState) (p : ℕ) : Bool :=
  walkFree s.blocks (s.blocks.length + 1) s.freeList p

/-- Page start addresses as integers (pointer values for the arithmetic
checks). -/
def intList (l : List ℕ) : List ℤ := l.map Int.ofNat

/-- `ObjectAllocator::check_freelist` on a state: corruption check first
(only with padding configured), then the double-free scan, then the
boundary check. -/
def check_freelist (s : AllocState) (p : ℕ) : Option OAErr :=
  if s.config.PadBytes_ != 0 && check_corruption_at s p then
    some .E_CORRUPTED_BLOCK
  else if check_multiple_free s p then
    some .E_MULTIPLE_FREE
  else if check_bad_location s.stats.ObjectSize_ s.config (p : ℤ)
      (intList s.pageList) then
    some .E_BAD_BOUNDARY
  else
    none

/-- The statistics mutation `put_on_freelist` performs before any check:
`Deallocations_++`, `ObjectsInUse_--`, `FreeObjects_++`. -/
def putStats (st : OAStats) : OAStats :=
  { st with
    Deallocations_ := st.Deallocations_ + 1
    ObjectsInUse_ := dec32 st.ObjectsInUse_
    FreeObjects_ := st.FreeObjects_ + 1 }

/-- The mutation of `put_on_freelist` after validation passes: write the
header to its freed state, fill the object storage with the freed
sentinel (debug; not tracked), and push the node on the free-list head. -/
def finishFree (s : AllocState) (p : ℕ) : AllocState :=
  let s1 := { s with
    blocks := aupdate p
      (configure_header s.config s.stats.Allocations_ none false false true) s.blocks }
  match s1.freeList with
  | none =>
    { s1 with
      blocks := aupdate p (fun b => { b with next := none }) s1.blocks
      freeList := some p }
  | some _ =>
    { s1 with
      blocks := aupdate p (fun b => { b with next := s1.freeList }) s1.blocks
      freeList := some p }

/-- `ObjectAllocator::put_on_freelist`: bumps the three statistics
counters, then (debug mode only) validates the pointer — a validation
failure throws, leaving the already-bumped statistics in place — and only
then writes the freed header, paints the storage, and pushes the node.
The result pairs the error signalled (if any) with the state the object
is left in. -/
def put_on_freelist (s : AllocState) (p : ℕ) : Option OAErr × AllocState :=
  let s1 := { s with stats := putStats s.stats }
  if s1.config.DebugOn_ then
    match check_freelist s1 p with
    | some e => (some e, s1)
    | none => (none, finishFree s1 p)
  else
    (none, finishFree s1 p)

/-- `ObjectAllocator::Free`, pool mode (fallback mode delegates to the
system deallocator and is outside this model). -/
def Free (s : AllocState) (p : ℕ) : Option OAErr × AllocState :=
  put_on_freelist s p

/-- `ObjectAllocator::take_off_freelist`: pops the free-list head.
Returns `none` when the free list is empty (the C++ code would
dereference a null pointer; `Allocate` never calls it in that state).
Statistics are bumped first, so the header's allocation number is the
incremented `Allocations_`; the head's `Next` link is read after the
header write (the header bytes do not overlap the `Next` overlay). -/
def take_off_freelist (lbl : Option String) (recByte : Bool) (s : AllocState) :
    Option (AllocState × ℕ) :=
  match s.freeList with
  | none => none
  | some h =>
    let st := { s.stats with
      FreeObjects_ := dec32 s.stats.FreeObjects_
      ObjectsInUse_ := s.stats.ObjectsInUse_ + 1
      MostObjects_ := s.stats.MostObjects_ + 1
      Allocations_ := s.stats.Allocations_ + 1 }
    let blocks1 := aupdate h
      (configure_header s.config st.Allocations_ lbl recByte true false) s.blocks
    some ({ s with
      stats := st
      blocks := blocks1
      freeList := (alookup h blocks1).bind Block.next }, h)

/-- `ObjectAllocator::allocate_empty_page`: signals `E_NO_PAGES` whenever
`PagesInUse_ >= MaxPages_`; otherwise obtains a raw page at address `A`
whose blocks hold the arbitrary raw contents `raw` (in debug mode the
page is filled with the unallocated sentinel, which sets every padding
byte to it; header bytes and the `Next` overlay are rewritten during
segmentation before any read and keep their `raw` model values), and
links it on the front of the page list. -/
def allocate_empty_page (s : AllocState) (A : ℕ) (raw : List Block) :
    Except OAErr AllocState :=
  if s.stats.PagesInUse_ ≥ s.config.MaxPages_ then
    .error .E_NO_PAGES
  else
    let os := s.stats.ObjectSize_
    let entries := (List.range s.config.ObjectsPerPage_).map fun i =>
      (objAddrA os s.config A i,
        let b := raw.getD i ⟨none, .uninit, [], []⟩
        if s.config.DebugOn_ then
          { b with
            leftPad := List.replicate s.config.PadBytes_ UNALLOCATED_PATTERN
            rightPad := List.replicate s.config.PadBytes_ UNALLOCATED_PATTERN }
        else b)
    .ok { s with
      pageList := A :: s.pageList
      blocks := entries ++ s.blocks }

/-- Pad painting performed by `make_block` in debug mode: both padding
strips are filled with the pad sentinel. -/
def segPaint (c : OAConfig) (b : Block) : Block :=
  if c.DebugOn_ then
    { b with
      leftPad := List.replicate c.PadBytes_ PAD_PATTERN
      rightPad := List.replicate c.PadBytes_ PAD_PATTERN }
  else b

/-- The free-list link `add_to_page` writes into block `i`: the previous
block of the page, or the null link for the page's first block. -/
def segLink (os : ℕ) (c : OAConfig) (A i : ℕ) (b : Block) : Block :=
  if i = 0 then { b with next := none }
  else { b with next := some (objAddrA os c A (i - 1)) }

/-- `ObjectAllocator::add_to_page` for block index `i` of the newest page
(at address `A`): `make_block` computes the object-storage address and
(debug mode) paints both padding strips with the pad sentinel; the block
becomes the new free-list head, its `Next` link pointing at the previous
block (or null for the first block); `FreeObjects_` is bumped and the
header is written to its first-use state. -/
def add_to_page (A : ℕ) (i : ℕ) (s : AllocState) : AllocState :=
  let os := s.stats.ObjectSize_
  let c := s.config
  let a := objAddrA os c A i
  { s with
    blocks := aupdate a
      (fun b => configure_header c s.stats.Allocations_ none false false false
        (segLink os c A i (segPaint c b)))
      s.blocks
    freeList := some a
    stats := { s.stats with FreeObjects_ := s.stats.FreeObjects_ + 1 } }

/-- `ObjectAllocator::segment_page`: runs `add_to_page` for every block
index of the newest page and then bumps `PagesInUse_`. -/
def segment_page (s : AllocState) : AllocState :=
  let A := s.pageList.headD 0
  let s1 := (List.range s.config.ObjectsPerPage_).foldl
    (fun t i => add_to_page A i t) s
  { s1 with stats := { s1.stats with PagesInUse_ := s1.stats.PagesInUse_ + 1 } }

/-- `ObjectAllocator::allocate_new_page`: an empty page followed by its
segmentation. -/
def allocate_new_page (s : AllocState) (A : ℕ) (raw : List Block) :
    Except OAErr AllocState :=
  (allocate_empty_page s A raw).map segment_page

/-- The allocator state at the top of the constructor: zeroed statistics
with the object and page sizes computed, empty page and free lists. -/
def initState (cfg : OAConfig) (os : ℕ) : AllocState :=
  { config := cfg
    stats :=
      { ObjectSize_ := os
        PageSize_ := calculate_page_size os cfg
        FreeObjects_ := 0
        ObjectsInUse_ := 0
        PagesInUse_ := 0
        MostObjects_ := 0
        Allocations_ := 0
        Deallocations_ := 0 }
    pageList := []
    blocks := []
    freeList := none }

/-- The `ObjectAllocator` constructor: in pool mode one page is eagerly
allocated and segmented; in fallback mode nothing is allocated up front. -/
def constructState (cfg : OAConfig) (os : ℕ) (A : ℕ) (raw : List Block) :
    Except OAErr AllocState :=
  if cfg.UseCPPMemManager_ then .ok (initState cfg os)
  else allocate_new_page (initState cfg os) A raw

/-- `ObjectAllocator::Allocate`, pool mode: when the free list is empty a
new page (at the fresh address `A`, raw contents `raw`) is allocated and
segmented first; then the free-list head is popped.  Fallback mode
delegates to the system allocator and is outside this model; `none` in
the success value stands for the null-head dereference that a
zero-blocks-per-page configuration would reach. -/
def Allocate (s : AllocState) (A : ℕ) (raw : List Block) (lbl : Option String)
    (recByte : Bool) : Except OAErr (Option (AllocState × ℕ)) :=
  match s.freeList with
  | none => (allocate_new_page s A raw).map (take_off_freelist lbl recByte)
  | some _ => .ok (take_off_freelist lbl recByte s)

/-- One page's contribution to `DumpMemoryInUse`: the callback pointers
reported while walking the page's blocks by stride from `create_offset`.
With a header configured, a block whose header marks it in use is
reported at `blockStart + HBlockInfo_.size_`. -/
def dump_page (os : ℕ) (c : OAConfig) (blocks : List (ℕ × Block)) (A : ℕ) : List ℕ :=
  (List.range c.ObjectsPerPage_).filterMap fun i =>
    if c.HBlockSize_ != 0 &&
        ((alookup (objAddrA os c A i) blocks).elim false (check_leak_in_header c)) then
      some (blockStartA os c A i + c.HBlockSize_)
    else none

/-- `ObjectAllocator::DumpMemoryInUse`: walks every page; returns the
callback count paired with the exact list of pointers passed to the
callback, in call order. -/
def DumpMemoryInUse (s : AllocState) : ℕ × List ℕ :=
  let ps := s.pageList.flatMap (dump_page s.stats.ObjectSize_ s.config s.blocks)
  (ps.length, ps)

/-- One page's contribution to `ValidatePages`: the traversal pointer
starts at `create_offset + headerSize + PadBytes_` (the first block's
object storage) and advances by the stride; with a header configured, a
block whose padding fails the corruption check is reported at
`pointer + HBlockInfo_.size_`. -/
def validate_page (os : ℕ) (c : OAConfig) (blocks : List (ℕ × Block)) (A : ℕ) : List ℕ :=
  (List.range c.ObjectsPerPage_).filterMap fun i =>
    if c.HBlockSize_ != 0 &&
        ((alookup (objAddrA os c A i) blocks).elim false fun b =>
          (List.range c.PadBytes_).any fun j =>
            b.leftPad.getD j 0 != PAD_PATTERN || b.rightPad.getD j 0 != PAD_PATTERN) then
      some (objAddrA os c A i + c.HBlockSize_)
    else none

/-- `ObjectAllocator::ValidatePages`: walks every page; returns the
callback count paired with the exact list of pointers passed to the
callback, in call order. -/
def ValidatePages (s : AllocState) : ℕ × List ℕ :=
  let ps := s.pageList.flatMap (validate_page s.stats.ObjectSize_ s.config s.blocks)
  (ps.length, ps)

/-- The free list as laid out in memory: following `Next` links from
`head` visits exactly the nodes of `L` and ends at the null link.  A
state whose free list satisfies `FreeChain` for some finite `L` is
nil-terminated; `L.Nodup` additionally makes the traversal acyclic. -/
inductive FreeChain (blocks : List (ℕ × Block)) : Option ℕ → List ℕ → Prop
  | nil : FreeChain blocks none []
  | cons {a : ℕ} {b : Block} {t : List ℕ} :
      alookup a blocks = some b →
      FreeChain blocks b.next t →
      FreeChain blocks (some a) (a :: t)

/-- The object-storage addresses of every block of every page, page by
page in page-list order. -/
def blockAddrList (s : AllocState) : List ℕ :=
  s.pageList.flatMap fun A =>
    (List.range s.config.ObjectsPerPage_).map (objAddrA s.stats.ObjectSize_ s.config A)

/-- `p` is the object-storage address of some block of some page. -/
def IsBlockAddr (s : AllocState) (p : ℕ) : Prop := p ∈ blockAddrList s

/-- No traversal of the free list from its head reaches `p` (in
particular, `p` is not a free block). -/
def NotInFreeChain (s : AllocState) (p : ℕ) : Prop :=
  ∀ L, FreeChain s.blocks s.freeList L → p ∉ L

/-- State invariant of the pool-mode allocator, maintained by every
successful public operation. -/
structure INV (s : AllocState) : Prop where
  pool : s.config.UseCPPMemManager_ = false
  opp_pos : 0 < s.config.ObjectsPerPage_
  hdr_none_iff : s.config.HBlockSize_ = 0 ↔ s.config.HBlockType_ = .hbNone
  os_ge : ptrSize ≤ s.stats.ObjectSize_
  ps_bound : calculate_page_size s.stats.ObjectSize_ s.config ≤ 2 ^ 64
  keysEq : s.blocks.map Prod.fst = blockAddrList s
  keysNodup : (blockAddrList s).Nodup
  pagesCount : s.stats.PagesInUse_ = s.pageList.length
  padsOK : s.config.DebugOn_ = true → ∀ kv ∈ s.blocks,
      kv.2.leftPad = List.replicate s.config.PadBytes_ PAD_PATTERN ∧
      kv.2.rightPad = List.replicate s.config.PadBytes_ PAD_PATTERN
  sumEq : s.stats.FreeObjects_ + s.stats.ObjectsInUse_ =
      s.stats.PagesInUse_ * s.config.ObjectsPerPage_
  allocCount : s.stats.ObjectsInUse_ + s.stats.Deallocations_ = s.stats.Allocations_
  chain : ∃ L, FreeChain s.blocks s.freeList L ∧ L.Nodup ∧
      L.length = s.stats.FreeObjects_ ∧ (∀ a ∈ L, IsBlockAddr s a) ∧
      ((s.config.HBlockType_ = .hbBasic ∨ s.config.HBlockType_ = .hbExtended) →
        ∀ kv ∈ s.blocks, (check_leak_in_header s.config kv.2 = true ↔ kv.1 ∉ L))

/-- The block addresses of a page about to be allocated at `A` do not
collide with any existing block's address (the freshness `new char[]`
guarantees for a page-sized region disjoint from all live pages). -/
def FreshPage (s : AllocState) (A : ℕ) : Prop :=
  ∀ i < s.config.ObjectsPerPage_,
    objAddrA s.stats.ObjectSize_ s.config A i ∉ s.blocks.map Prod.fst

/-- A successful `Allocate` call from `s` producing `s'` and the client
pointer `p`; when a fresh page is needed, its address does not collide
with live blocks. -/
def AllocStep (s s' : AllocState) (p : ℕ) : Prop :=
  ∃ lbl rb A raw, Allocate s A raw lbl rb = .ok (some (s', p)) ∧
    (s.freeList = none → FreshPage s A)

/-- A successful `Free` call from `s` producing `s'`, where the client
honours the borrow contract: the pointer is a block address that is not
currently on the free list. -/
def FreeStep (s s' : AllocState) (p : ℕ) : Prop :=
  IsBlockAddr s p ∧ NotInFreeChain s p ∧ put_on_freelist s p = (none, s')

/-- States produced by pool-mode construction followed by any sequence of
successful, contract-respecting `Allocate`/`Free` calls.  Construction
requires an object big enough to hold a free-list link, a header size
consistent with the header variant, and a page small enough for the
64-bit address space (`calculate_page_size` is a `size_t`). -/
inductive Reached : AllocState → Prop
  | construct {cfg : OAConfig} {os A : ℕ} {raw : List Block} {s : AllocState} :
      cfg.UseCPPMemManager_ = false →
      0 < cfg.ObjectsPerPage_ →
      (cfg.HBlockSize_ = 0 ↔ cfg.HBlockType_ = .hbNone) →
      ptrSize ≤ os →
      calculate_page_size os cfg ≤ 2 ^ 64 →
      constructState cfg os A raw = .ok s →
      Reached s
  | alloc {s s' : AllocState} {p : ℕ} : Reached s → AllocStep s s' p → Reached s'
  | free {s s' : AllocState} {p : ℕ} : Reached s → FreeStep s s' p → Reached s'

/-! ### Concrete scenario states used to exercise the operations -/

/-- A block whose storage was never written. -/
def rawB : Block := ⟨none, .uninit, [], []⟩

/-- Pool mode, one object per page, one page, no debug, no padding, no
header. -/
def cfgP : OAConfig :=
  ⟨false, 1, 1, false, 0, .hbNone, 0, 0⟩

/-- `cfgP` with debug mode on. -/
def cfgD : OAConfig :=
  ⟨false, 1, 1, true, 0, .hbNone, 0, 0⟩

/-- `cfgP` with a basic header (five bytes). -/
def cfgB : OAConfig :=
  ⟨false, 1, 1, false, 0, .hbBasic, 5, 0⟩

/-- `cfgB` with two padding bytes per side. -/
def cfgB2 : OAConfig :=
  ⟨false, 1, 1, false, 2, .hbBasic, 5, 0⟩

/-- Debug mode with one padding byte and no header, two blocks per page. -/
def cfg7 : OAConfig :=
  ⟨false, 2, 1, true, 1, .hbNone, 0, 0⟩

/-- Debug mode with one padding byte and no header, one block per page. -/
def cfg5 : OAConfig :=
  ⟨false, 1, 1, true, 1, .hbNone, 0, 0⟩

/-- Runs the pool-mode constructor, keeping the state (the configurations
above make construction succeed). -/
def constructRun (cfg : OAConfig) : AllocState :=
  match constructState cfg 8 0 [rawB] with
  | .ok s => s
  | .error _ => initState cfg 8

/-- Runs `Allocate` from a state whose free list is non-empty, keeping the
state. -/
def allocRun (s : AllocState) : AllocState :=
  match take_off_freelist none false s with
  | some (t, _) => t
  | none => s

def sInit : AllocState := constructRun cfgP

def s10b : AllocState := allocRun sInit

def s10c : AllocState := (put_on_freelist s10b 8).2

def s10d : AllocState := (put_on_freelist s10c 8).2

def s3d : AllocState := allocRun s10c

def sDInit : AllocState := constructRun cfgD

def sD1 : AllocState := allocRun sDInit

def sD2 : AllocState := (put_on_freelist sD1 8).2

def sBInit : AllocState := constructRun cfgB

def sB1 : AllocState := allocRun sBInit

/-- `cfgB2` with debug mode on. -/
def cfgB2D : OAConfig :=
  ⟨false, 1, 1, true, 2, .hbBasic, 5, 0⟩

def sB2init : AllocState := constructRun cfgB2

def sB2a : AllocState := allocRun sB2init

def sB2Da : AllocState := allocRun (constructRun cfgB2D)

/-- `sB2Da` after the client overwrites the first byte past the object's
declared size (the first right-padding byte) of the in-use block at
address 15. -/
def sB2Dr : AllocState :=
  { sB2Da with blocks := aupdate 15 (fun b => { b with rightPad := [0, 255] }) sB2Da.blocks }

/-- Pool mode, one object per page, one page, external header (a
pointer-sized slot), no debug, no padding. -/
def cfgE : OAConfig :=
  ⟨false, 1, 1, false, 0, .hbExternal, 8, 0⟩

def sEInit : AllocState := constructRun cfgE

/-- `sEInit` after one `Allocate` whose fresh metadata record happens to
live at an address whose inspected byte is zero (e.g. the canonical
layout's in-use member at offset 0 and a 256-aligned record). -/
def sE1 : AllocState := allocRun sEInit

def sC5init : AllocState := constructRun cfg5

def sC5a : AllocState := allocRun sC5init

/-- `sC5a` after the client overwrites the byte directly past the

object's declared size (the first right-padding byte) of the in-use
block at address 9. -/
def sC5r : AllocState :=
  { sC5a with blocks := aupdate 9 (fun b => { b with rightPad := [0] }) sC5a.blocks }

/-- Facts about the state after segmenting the first `k` blocks of the
newest page (at address `A`) of `s0`. -/
structure SegFold (s0 : AllocState) (A k : ℕ) (t : AllocState) : Prop where
  config_eq : t.config = s0.config
  pageList_eq : t.pageList = s0.pageList
  os_eq : t.stats.ObjectSize_ = s0.stats.ObjectSize_
  alloc_eq : t.stats.Allocations_ = s0.stats.Allocations_
  deall_eq : t.stats.Deallocations_ = s0.stats.Deallocations_
  inuse_eq : t.stats.ObjectsInUse_ = s0.stats.ObjectsInUse_
  pages_eq : t.stats.PagesInUse_ = s0.stats.PagesInUse_
  most_eq : t.stats.MostObjects_ = s0.stats.MostObjects_
  free_eq : t.stats.FreeObjects_ = s0.stats.FreeObjects_ + k
  keys_eq : t.blocks.map Prod.fst = s0.blocks.map Prod.fst
  fl_zero : k = 0 → t.freeList = s0.freeList
  fl_pos : 0 < k → t.freeList =
    some (objAddrA s0.stats.ObjectSize_ s0.config A (k - 1))
  seg : ∀ j < k, ∃ b0,
    alookup (objAddrA s0.stats.ObjectSize_ s0.config A j) s0.blocks = some b0 ∧
    alookup (objAddrA s0.stats.ObjectSize_ s0.config A j) t.blocks =
      some (configure_header s0.config s0.stats.Allocations_ none false false false
        (segLink s0.stats.ObjectSize_ s0.config A j (segPaint s0.config b0)))
  untouched : ∀ x, (∀ j < k, x ≠ objAddrA s0.stats.ObjectSize_ s0.config A j) →
    alookup x t.blocks = alookup x s0.blocks

/-! ### Association-list and chain lemmas -/

theorem alookup_aupdate_self (a : ℕ) (f : Block → Block) (l : List (ℕ × Block)) :
    alookup a (aupdate a f l) = (alookup a l).map f := by
  induction l with
  | nil => rfl
  | cons kv rest ih =>
    by_cases h : kv.1 = a
    · simp [alookup, aupdate, h]
    · simp [alookup, aupdate, h, ih]

theorem alookup_aupdate_ne {a a' : ℕ} (h : a ≠ a') (f : Block → Block)
    (l : List (ℕ × Block)) : alookup a (aupdate a' f l) = alookup a l := by
  induction l with
  | nil => rfl
  | cons kv rest ih =>
    by_cases hk : kv.1 = a'
    · have hne : kv.1 ≠ a := by rw [hk]; exact fun hc => h hc.symm
      simp [alookup, aupdate, hk, hne, ih, Ne.symm h]
    · simp [alookup, aupdate, hk, ih]

theorem aupdate_map_fst (a : ℕ) (f : Block → Block) (l : List (ℕ × Block)) :
    (aupdate a f l).map Prod.fst = l.map Prod.fst := by
  induction l with
  | nil => rfl
  | cons kv rest ih =>
    by_cases h : kv.1 = a
    · simp [aupdate, h, ih]
    · simp [aupdate, h, ih]

theorem alookup_append_right {a : ℕ} {l1 : List (ℕ × Block)}
    (h : a ∉ l1.map Prod.fst) (l2 : List (ℕ × Block)) :
    alookup a (l1 ++ l2) = alookup a l2 := by
  induction l1 with
  | nil => rfl
  | cons kv rest ih =>
    simp only [List.map_cons, List.mem_cons] at h
    push_neg at h
    have : kv.1 ≠ a := fun hc => h.1 hc.symm
    simpa [alookup, this] using ih h.2

theorem alookup_mem_of_some {a : ℕ} {b : Block} {l : List (ℕ × Block)}
    (h : alookup a l = some b) : a ∈ l.map Prod.fst := by
  induction l with
  | nil => simp [alookup] at h
  | cons kv rest ih =>
    by_cases hk : kv.1 = a
    · exact List.mem_map.mpr ⟨kv, List.mem_cons_self _ _, hk⟩
    · simp only [alookup, hk, if_false] at h
      exact List.mem_cons_of_mem _ (ih h)

theorem alookup_pair_mem {a : ℕ} {b : Block} {l : List (ℕ × Block)}
    (h : alookup a l = some b) : (a, b) ∈ l := by
  induction l with
  | nil => simp [alookup] at h
  | cons kv rest ih =>
    by_cases hk : kv.1 = a
    · simp only [alookup, hk, if_true, Option.some.injEq] at h
      subst hk; subst h
      exact List.mem_cons_self _ _
    · simp only [alookup, hk, if_false] at h
      exact List.mem_cons_of_mem _ (ih h)

theorem alookup_isSome_of_mem {a : ℕ} {l : List (ℕ × Block)}
    (h : a ∈ l.map Prod.fst) : ∃ b, alookup a l = some b := by
  induction l with
  | nil => simp at h
  | cons kv rest ih =>
    by_cases hk : kv.1 = a
    · exact ⟨kv.2, by simp [alookup, hk]⟩
    · simp only [List.map_cons, List.mem_cons] at h
      rcases h with h | h
    
      · exact absurd h.symm hk
      · simpa [alookup, hk] using ih h

theorem FreeChain.det {blocks : List (ℕ × Block)} {h : Option ℕ}
    {L L' : List ℕ} (c1 : FreeChain blocks h L) (c2 : FreeChain blocks h L') :
    L = L' := by
  induction c1 generalizing L' with
  | nil => cases c2; rfl
  | cons hl _ ih =>
    cases c2 with
    | cons hl' ct' =>
      rw [hl] at hl'
      cases hl'
      exact congrArg _ (ih ct')

theorem FreeChain.head_mem {blocks : List (ℕ × Block)} {a : ℕ} {L : List ℕ}
    (c : FreeChain blocks (some a) L) : a ∈ L := by
  cases c with
  | cons _ _ => exact List.mem_cons_self _ _

theorem FreeChain.mem_keys {blocks : List (ℕ × Block)} {h : Option ℕ}
    {L : List ℕ} (c : FreeChain blocks h L) :
    ∀ a ∈ L, a ∈ blocks.map Prod.fst := by
  induction c with
  | nil => intro a ha; simp at ha
  | cons hl _ ih =>
    intro x hx
    rcases List.mem_cons.mp hx with rfl | hx
    · exact alookup_mem_of_some hl
    · exact ih x hx

theorem FreeChain.stable {blocks blocks' : List (ℕ × Block)} {h : Option ℕ}
    {L : List ℕ} (c : FreeChain blocks h L)
    (heq : ∀ a ∈ L, alookup a blocks' = alookup a blocks) :
    FreeChain blocks' h L := by
  induction c with
  | nil => exact .nil
  | cons hl ct ih =>
    refine .cons ?_ (ih fun a ha => heq a (List.mem_cons_of_mem _ ha))
    rw [heq _ (List.mem_cons_self _ _)]
    exact hl

theorem walkFree_eq_contains {blocks : List (ℕ × Block)} {h : Option ℕ}
    {L : List ℕ} (c : FreeChain blocks h L) :
    ∀ fuel, L.length < fuel → ∀ p, walkFree blocks fuel h p = L.contains p := by
  induction c with
  | nil =>
    intro fuel hf p
    match fuel, hf with
    | fuel + 1, _ => simp [walkFree]
  | @cons a b t hl ct ih =>
    intro fuel hf p
    match fuel, hf with
    | fuel + 1, hf =>
      have hft : t.length < fuel := by simp at hf; omega
      simp only [walkFree, hl, Option.some_bind]
      by_cases hap : a = p
      · simp [hap]
      · have hpa : (p == a) = false :=
          beq_eq_false_iff_ne.mpr fun hc => hap hc.symm
        rw [if_neg hap, ih fuel hft p]
        simp only [List.contains_cons, hpa, Bool.false_or]

/-! ### Arithmetic facts about block addresses -/

theorem le_objAddrA (os : ℕ) (c : OAConfig) (A i : ℕ) : A ≤ objAddrA os c A i := by
  unfold objAddrA blockStartA create_offset
  omega

theorem objAddrA_add_ptrSize_le {os : ℕ} {c : OAConfig} (h8 : ptrSize ≤ os)
    {i : ℕ} (hi : i < c.ObjectsPerPage_) (A : ℕ) :
    objAddrA os c A i + ptrSize ≤ A + calculate_page_size os c := by
  have hmul : calculate_block_size os c * (i + 1) ≤
      calculate_block_size os c * c.ObjectsPerPage_ :=
    Nat.mul_le_mul_left _ hi
  rw [Nat.mul_succ] at hmul
  unfold objAddrA blockStartA create_offset calculate_page_size at *
  unfold calculate_block_size ptrSize at *
  omega

theorem objAddrA_inj {os : ℕ} {c : OAConfig} (h8 : ptrSize ≤ os) {A i j : ℕ}
    (h : objAddrA os c A i = objAddrA os c A j) : i = j := by
  have hbs : 0 < calculate_block_size os c := by
    unfold calculate_block_size ptrSize at *; omega
  unfold objAddrA blockStartA at h
  have : calculate_block_size os c * i = calculate_block_size os c * j := by omega
  exact Nat.eq_of_mul_eq_mul_left hbs this

theorem newPage_addrs_nodup {os : ℕ} {c : OAConfig} (h8 : ptrSize ≤ os)
    (A n : ℕ) : (((List.range n).map (objAddrA os c A))).Nodup := by
  refine List.Nodup.map_on ?_ (List.nodup_range n)
  intro i _ j _ hij
  exact objAddrA_inj h8 hij

theorem check_out_of_page_at_block {os : ℕ} {c : OAConfig} (h8 : ptrSize ≤ os)
    {i : ℕ} (hi : i < c.ObjectsPerPage_) (A : ℕ) :
    check_out_of_page os c (objAddrA os c A i : ℤ) (A : ℤ) = false := by
  have hA := le_objAddrA os c A i
  have hB := objAddrA_add_ptrSize_le h8 hi A
  simp only [check_out_of_page, Bool.or_eq_false_iff, decide_eq_false_iff_not, not_lt]
  constructor
  · exact_mod_cast hA
  · omega

theorem check_wrong_offset_at_block (os : ℕ) (c : OAConfig)
    (A i : ℕ) (hlt : calculate_block_size os c * i < 2 ^ 64) :
    check_wrong_offset os c (objAddrA os c A i : ℤ) (A : ℤ) = false := by
  have hdiff : (objAddrA os c A i : ℤ) -
      ((A : ℤ) + (ptrSize : ℤ) + (c.HBlockSize_ : ℤ) + (c.PadBytes_ : ℤ)) =
      (calculate_block_size os c : ℤ) * (i : ℤ) := by
    unfold objAddrA blockStartA create_offset
    push_cast
    ring
  have hnn : (0 : ℤ) ≤ (calculate_block_size os c : ℤ) * (i : ℤ) := by positivity
  have hub : (calculate_block_size os c : ℤ) * (i : ℤ) < 2 ^ 64 := by exact_mod_cast hlt
  simp only [check_wrong_offset, bne_eq_false_iff_eq, hdiff]
  rw [Int.emod_eq_of_lt hnn hub]
  exact Int.mul_emod_right _ _

theorem check_bad_location_pass {os : ℕ} {c : OAConfig} {p : ℤ} {pages : List ℤ}
    (hx : ∃ A ∈ pages, check_out_of_page os c p A = false ∧
      check_wrong_offset os c p A = false) :
    check_bad_location os c p pages = false := by
  suffices h : ∀ t : Bool, check_bad_location_go os c p t pages = false from h false
  induction pages with
  | nil => rcases hx with ⟨A, hA, _⟩; simp at hA
  | cons A0 rest ih =>
    intro t
    rcases hx with ⟨A, hA, hpass⟩
    rcases List.mem_cons.mp hA with rfl | hA
    · simp [check_bad_location_go, hpass.1, hpass.2]
    · by_cases hfail : check_out_of_page os c p A0 || check_wrong_offset os c p A0
      · simp only [check_bad_location_go, hfail, if_true]
        exact ih ⟨A, hA, hpass⟩ true
      · simp only [check_bad_location_go, hfail]
        simp at hfail
        simp [hfail.1, hfail.2]

/-! ### Header-write lemmas -/

theorem configure_header_next (c : OAConfig) (n : ℕ) (lbl : Option String)
    (rb al fr : Bool) (b : Block) :
    (configure_header c n lbl rb al fr b).next = b.next := by
  unfold configure_header
  rcases c.HBlockType_ <;> simp only [] <;>
    repeat' first
      | rfl
      | split

theorem configure_header_leftPad (c : OAConfig) (n : ℕ) (lbl : Option String)
    (rb al fr : Bool) (b : Block) :
    (configure_header c n lbl rb al fr b).leftPad = b.leftPad := by
  unfold configure_header
  rcases c.HBlockType_ <;> simp only [] <;>
    repeat' first
      | rfl
      | split

theorem configure_header_rightPad (c : OAConfig) (n : ℕ) (lbl : Option String)
    (rb al fr : Bool) (b : Block) :
    (configure_header c n lbl rb al fr b).rightPad = b.rightPad := by
  unfold configure_header
  rcases c.HBlockType_ <;> simp only [] <;>
    repeat' first
      | rfl
      | split

theorem hbtype_ne_none {c : OAConfig}
    (h : c.HBlockType_ = .hbBasic ∨ c.HBlockType_ = .hbExtended) :
    c.HBlockType_ ≠ .hbNone := by
  rcases h with h | h <;> rw [h] <;> decide

theorem check_leak_configure_alloc {c : OAConfig}
    (hne : c.HBlockType_ = .hbBasic ∨ c.HBlockType_ = .hbExtended)
    (n : ℕ) (lbl : Option String) (rb : Bool) (b : Block) :
    check_leak_in_header c (configure_header c n lbl rb true false b) = true := by
  unfold configure_header check_leak_in_header
  rcases hty : c.HBlockType_ <;> simp only []
  · exact absurd hty (hbtype_ne_none hne)
  · rfl
  · rcases b.hdr <;> rfl
  · rcases hne with h | h <;> rw [hty] at h <;> exact absurd h (by decide)

theorem check_leak_configure_freed {c : OAConfig} (hne : c.HBlockType_ ≠ .hbNone)
    (n : ℕ) (lbl : Option String) (rb : Bool) (b : Block) :
    check_leak_in_header c (configure_header c n lbl rb false true b) = false := by
  unfold configure_header check_leak_in_header
  rcases hty : c.HBlockType_ <;> simp only []
  · exact absurd hty hne
  · rfl
  · rcases b.hdr <;> rfl
  · rfl

theorem check_leak_configure_init {c : OAConfig} (hne : c.HBlockType_ ≠ .hbNone)
    (n : ℕ) (lbl : Option String) (rb : Bool) (b : Block) :
    check_leak_in_header c (configure_header c n lbl rb false false b) = false := by
  unfold configure_header check_leak_in_header
  rcases hty : c.HBlockType_ <;> simp only []
  · exact absurd hty hne
  · rfl
  · rfl
  · rfl

/-! ### Validation-pass lemmas -/

theorem getD_replicate_of_lt {n i x d : ℕ} (h : i < n) :
    (List.replicate n x).getD i d = x := by
  induction n generalizing i with
  | zero => omega
  | succ m ih =>
    cases i with
    | zero => rfl
    | succ k => exact ih (by omega)

theorem check_corruption_at_clean {s : AllocState} {p : ℕ} {b : Block}
    (hl : alookup p s.blocks = some b)
    (hlp : b.leftPad = List.replicate s.config.PadBytes_ PAD_PATTERN)
    (hrp : b.rightPad = List.replicate s.config.PadBytes_ PAD_PATTERN) :
    check_corruption_at s p = false := by
  unfold check_corruption_at
  rw [hl]
  simp only [List.any_eq_false, List.mem_range]
  intro i hi
  rw [hlp, hrp]
  simp [List.getElem?_replicate, hi]

theorem aupdate_aupdate (a : ℕ) (f g : Block → Block) (l : List (ℕ × Block)) :
    aupdate a g (aupdate a f l) = aupdate a (fun x => g (f x)) l := by
  induction l with
  | nil => rfl
  | cons kv rest ih =>
    by_cases h : kv.1 = a
    · simp [aupdate, h, ih]
    · simp [aupdate, h, ih]

theorem check_multiple_free_eq {s : AllocState} {L : List ℕ}
    (hc : FreeChain s.blocks s.freeList L) (hnd : L.Nodup) (p : ℕ) :
    check_multiple_free s p = L.contains p := by
  refine walkFree_eq_contains hc _ ?_ p
  have hsub : L ⊆ s.blocks.map Prod.fst := fun a ha => hc.mem_keys a ha
  have hle : L.length ≤ (s.blocks.map Prod.fst).length :=
    (hnd.subperm hsub).length_le
  simp only [List.length_map] at hle
  omega

theorem contains_eq_false_of_not_mem {L : List ℕ} {p : ℕ} (h : p ∉ L) :
    L.contains p = false := by
  rw [show L.contains p = L.elem p from rfl, List.elem_eq_mem]
  simp [h]

theorem isBlockAddr_elim {s : AllocState} {p : ℕ} (h : IsBlockAddr s p) :
    ∃ A ∈ s.pageList, ∃ i < s.config.ObjectsPerPage_,
      p = objAddrA s.stats.ObjectSize_ s.config A i := by
  unfold IsBlockAddr blockAddrList at h
  rcases List.mem_flatMap.mp h with ⟨A, hA, hp⟩
  rcases List.mem_map.mp hp with ⟨i, hi, rfl⟩
  exact ⟨A, hA, i, List.mem_range.mp hi, rfl⟩

theorem check_freelist_none {s : AllocState} {L : List ℕ} {p : ℕ}
    (hchain : FreeChain s.blocks s.freeList L) (hnd : L.Nodup)
    (hnp : p ∉ L) (hpb : IsBlockAddr s p)
    (hkeys : s.blocks.map Prod.fst = blockAddrList s)
    (h8 : ptrSize ≤ s.stats.ObjectSize_)
    (hps : calculate_page_size s.stats.ObjectSize_ s.config ≤ 2 ^ 64)
    (hpads : ∀ kv ∈ s.blocks,
      kv.2.leftPad = List.replicate s.config.PadBytes_ PAD_PATTERN ∧
      kv.2.rightPad = List.replicate s.config.PadBytes_ PAD_PATTERN) :
    check_freelist s p = none := by
  have hkey : p ∈ s.blocks.map Prod.fst := by rw [hkeys]; exact hpb
  rcases alookup_isSome_of_mem hkey with ⟨b, hb⟩
  have hbp := hpads _ (alookup_pair_mem hb)
  have hcorr : check_corruption_at s p = false :=
    check_corruption_at_clean hb hbp.1 hbp.2
  have hmult : check_multiple_free s p = false := by
    rw [check_multiple_free_eq hchain hnd p]
    exact contains_eq_false_of_not_mem hnp
  rcases isBlockAddr_elim hpb with ⟨A, hA, i, hi, rfl⟩
  have hbs : 0 < calculate_block_size s.stats.ObjectSize_ s.config := by
    unfold calculate_block_size
    unfold ptrSize at h8
    omega
  have hlt : calculate_block_size s.stats.ObjectSize_ s.config * i < 2 ^ 64 := by
    have h1 : calculate_block_size s.stats.ObjectSize_ s.config * i <
        calculate_block_size s.stats.ObjectSize_ s.config * s.config.ObjectsPerPage_ :=
      mul_lt_mul_of_pos_left hi hbs
    unfold calculate_page_size at hps
    calc calculate_block_size s.stats.ObjectSize_ s.config * i
        < calculate_block_size s.stats.ObjectSize_ s.config * s.config.ObjectsPerPage_ := h1
      _ ≤ ptrSize + calculate_block_size s.stats.ObjectSize_ s.config *
            s.config.ObjectsPerPage_ := Nat.le_add_left _ _
      _ ≤ 2 ^ 64 := hps
  have hbad : check_bad_location s.stats.ObjectSize_ s.config
      ((objAddrA s.stats.ObjectSize_ s.config A i : ℕ) : ℤ)
      (intList s.pageList) = false := by
    refine check_bad_location_pass
      ⟨(A : ℤ), ?_, ?_, ?_⟩
    · exact List.mem_map_of_mem Int.ofNat hA
    · exact check_out_of_page_at_block h8 hi A
    · exact check_wrong_offset_at_block _ _ A i hlt
  unfold check_freelist
  rw [hcorr, hmult, hbad]
  simp

/-! ### More association-list and counting helpers -/

theorem mem_aupdate {a : ℕ} {f : Block → Block} {l : List (ℕ × Block)}
    {kv : ℕ × Block} (h : kv ∈ aupdate a f l) :
    ∃ kv0 ∈ l, kv = if kv0.1 = a then (kv0.1, f kv0.2) else kv0 := by
  induction l with
  | nil => simp [aupdate] at h
  | cons kv1 rest ih =>
    rcases List.mem_cons.mp h with h1 | h1
    · exact ⟨kv1, List.mem_cons_self _ _, h1⟩
    · rcases ih h1 with ⟨kv0, hm, he⟩
      exact ⟨kv0, List.mem_cons_of_mem _ hm, he⟩

theorem alookup_of_mem_nodup {l : List (ℕ × Block)} {a : ℕ} {b : Block}
    (hnd : (l.map Prod.fst).Nodup) (h : (a, b) ∈ l) : alookup a l = some b := by
  induction l with
  | nil => simp at h
  | cons kv rest ih =>
    simp only [List.map_cons, List.nodup_cons] at hnd
    rcases List.mem_cons.mp h with h1 | h1
    · rw [← h1]
      simp [alookup]
    · have hk : kv.1 ≠ a := by
        intro hc
        exact hnd.1 (by
          rw [hc]
          exact List.mem_map.mpr ⟨(a, b), h1, rfl⟩)
      simpa [alookup, hk] using ih hnd.2 h1

theorem length_lt_of_not_mem {L M : List ℕ} {p : ℕ} (hnd : L.Nodup)
    (hsub : ∀ a ∈ L, a ∈ M) (hpM : p ∈ M) (hpL : p ∉ L) :
    L.length < M.length := by
  have hnd2 : (p :: L).Nodup := List.nodup_cons.mpr ⟨hpL, hnd⟩
  have hsub2 : (p :: L) ⊆ M := by
    intro x hx
    rcases List.mem_cons.mp hx with rfl | hx
    · exact hpM
    · exact hsub x hx
  have := (hnd2.subperm hsub2).length_le
  simpa using this

theorem blockAddrList_length (s : AllocState) :
    (blockAddrList s).length = s.pageList.length * s.config.ObjectsPerPage_ := by
  unfold blockAddrList
  induction s.pageList with
  | nil => simp
  | cons A rest ih =>
    simp only [List.flatMap_cons, List.length_append, List.length_map,
      List.length_range, ih, List.length_cons]
    ring

theorem freeChain_none_nil {blocks : List (ℕ × Block)} {L : List ℕ}
    (h : FreeChain blocks none L) : L = [] := by
  cases h
  rfl

/-! ### Invariant preservation: Allocate from a non-empty free list -/

theorem inv_take_off {s : AllocState} (inv : INV s) {h : ℕ}
    (hfl : s.freeList = some h) (lbl : Option String) (rb : Bool) :
    ∃ s', take_off_freelist lbl rb s = some (s', h) ∧ INV s' ∧
      IsBlockAddr s' h ∧ NotInFreeChain s' h ∧
      s'.config = s.config ∧ s'.pageList = s.pageList ∧
      s'.blocks.map Prod.fst = s.blocks.map Prod.fst ∧
      s'.stats.ObjectSize_ = s.stats.ObjectSize_ ∧
      s'.stats.FreeObjects_ = s.stats.FreeObjects_ - 1 ∧
      s'.stats.ObjectsInUse_ = s.stats.ObjectsInUse_ + 1 ∧
      s'.stats.MostObjects_ = s.stats.MostObjects_ + 1 ∧
      s'.stats.Allocations_ = s.stats.Allocations_ + 1 ∧
      s'.stats.Deallocations_ = s.stats.Deallocations_ ∧
      s'.stats.PagesInUse_ = s.stats.PagesInUse_ ∧
      0 < s.stats.FreeObjects_ := by
  rcases inv.chain with ⟨L, hch, hnd, hlen, hmem, hflag⟩
  rw [hfl] at hch
  cases hch with
  | @cons _ b t hb hct =>
  have hkeysnd : (s.blocks.map Prod.fst).Nodup := by
    rw [inv.keysEq]; exact inv.keysNodup
  have hht : h ∉ t ∧ t.Nodup := List.nodup_cons.mp hnd
  have hfree_pos : 0 < s.stats.FreeObjects_ := by
    rw [← hlen]; simp
  have hdec : dec32 s.stats.FreeObjects_ = s.stats.FreeObjects_ - 1 := by
    unfold dec32
    rw [if_neg (by omega)]
  refine ⟨{ s with
      stats := { s.stats with
        FreeObjects_ := dec32 s.stats.FreeObjects_
        ObjectsInUse_ := s.stats.ObjectsInUse_ + 1
        MostObjects_ := s.stats.MostObjects_ + 1
        Allocations_ := s.stats.Allocations_ + 1 }
      blocks := aupdate h
        (configure_header s.config (s.stats.Allocations_ + 1) lbl rb true false) s.blocks
      freeList := b.next }, ?_, ?_, ?_, ?_, rfl, rfl, aupdate_map_fst _ _ _,
    rfl, hdec, rfl, rfl, rfl, rfl, rfl, hfree_pos⟩
  · unfold take_off_freelist
    rw [hfl]
    simp only [Option.some.injEq, Prod.mk.injEq, and_true]
    congr 1
    rw [alookup_aupdate_self, hb]
    simp [configure_header_next]
  · -- the invariant at the new state
    have hstable : ∀ a ∈ t,
        alookup a (aupdate h
          (configure_header s.config (s.stats.Allocations_ + 1) lbl rb true false) s.blocks) =
        alookup a s.blocks := by
      intro a ha
      have : a ≠ h := fun hc => hht.1 (hc ▸ ha)
      exact alookup_aupdate_ne this _ _
    have hct' : FreeChain
        (aupdate h (configure_header s.config (s.stats.Allocations_ + 1) lbl rb true false) s.blocks)
        b.next t := hct.stable hstable
    refine ⟨inv.pool, inv.opp_pos, inv.hdr_none_iff, inv.os_ge, inv.ps_bound, ?_,
      inv.keysNodup, inv.pagesCount, ?_, ?_, ?_, ?_⟩
    · rw [aupdate_map_fst]
      exact inv.keysEq
    · intro hdbg kv hkv
      rcases mem_aupdate hkv with ⟨kv0, hm0, he⟩
      have hpads0 := inv.padsOK hdbg kv0 hm0
      by_cases hk : kv0.1 = h
      · rw [he, if_pos hk]
        exact ⟨by rw [configure_header_leftPad]; exact hpads0.1,
          by rw [configure_header_rightPad]; exact hpads0.2⟩
      · rw [he, if_neg hk]
        exact hpads0
    · have := inv.sumEq
      dsimp only
      rw [hdec]
      omega
    · have := inv.allocCount
      dsimp only
      omega
    · refine ⟨t, hct', hht.2, ?_, ?_, ?_⟩
      · rw [hdec]
        simpa using congrArg (fun x => x - 1) hlen
      · intro a ha
        exact hmem a (List.mem_cons_of_mem _ ha)
      · intro htne kv hkv
        rcases mem_aupdate hkv with ⟨kv0, hm0, he⟩
        by_cases hk : kv0.1 = h
        · have hkv0 : alookup h s.blocks = some kv0.2 := by
            rw [← hk]
            exact alookup_of_mem_nodup hkeysnd hm0
          have hbb : kv0.2 = b := by
            rw [hkv0] at hb
            exact Option.some.inj hb
          rw [he, if_pos hk]
          constructor
          · intro _
            simpa [hk] using hht.1
          · intro _
            rw [hbb]
            exact check_leak_configure_alloc htne _ _ _ _
        · rw [he, if_neg hk]
          have hold := hflag htne kv0 hm0
          constructor
          · intro hfg hmt
            exact (hold.mp hfg) (List.mem_cons_of_mem _ hmt)
          · intro hnt
            refine hold.mpr fun hc => ?_
            rcases List.mem_cons.mp hc with hc | hc
            · exact hk hc
            · exact hnt hc
  · exact hmem h (List.mem_cons_self _ _)
  · intro L0 hc0
    have hchain' : FreeChain
        (aupdate h (configure_header s.config (s.stats.Allocations_ + 1) lbl rb true false) s.blocks)
        b.next t := by
      refine hct.stable ?_
      intro a ha
      have : a ≠ h := fun hc => hht.1 (hc ▸ ha)
      exact alookup_aupdate_ne this _ _
    have := FreeChain.det hc0 hchain'
    rw [this]
    exact hht.1

/-! ### Invariant preservation: page allocation and segmentation -/

theorem segment_fold {s0 : AllocState} (A : ℕ)
    (h8 : ptrSize ≤ s0.stats.ObjectSize_)
    (hkeys : ∀ i < s0.config.ObjectsPerPage_,
      objAddrA s0.stats.ObjectSize_ s0.config A i ∈ s0.blocks.map Prod.fst) :
    ∀ k, k ≤ s0.config.ObjectsPerPage_ →
      SegFold s0 A k ((List.range k).foldl (fun t i => add_to_page A i t) s0) := by
  intro k
  induction k with
  | zero =>
    intro _
    exact ⟨rfl, rfl, rfl, rfl, rfl, rfl, rfl, rfl, rfl, rfl,
      fun _ => rfl, fun hk => absurd hk (by omega),
      fun j hj => absurd hj (by omega), fun x _ => rfl⟩
  | succ k ih =>
    intro hk
    have IH := ih (by omega)
    rw [List.range_succ, List.foldl_append, List.foldl_cons, List.foldl_nil]
    set t := (List.range k).foldl (fun t i => add_to_page A i t) s0 with ht
    have hosr : t.stats.ObjectSize_ = s0.stats.ObjectSize_ := IH.os_eq
    have hcfgr : t.config = s0.config := IH.config_eq
    have hallocr : t.stats.Allocations_ = s0.stats.Allocations_ := IH.alloc_eq
    have haddr_eq : objAddrA t.stats.ObjectSize_ t.config A k =
        objAddrA s0.stats.ObjectSize_ s0.config A k := by rw [hosr, hcfgr]
    have hkne : ∀ j < k, objAddrA s0.stats.ObjectSize_ s0.config A k ≠
        objAddrA s0.stats.ObjectSize_ s0.config A j := by
      intro j hj hc
      have := objAddrA_inj h8 hc
      omega
    have hlk : alookup (objAddrA s0.stats.ObjectSize_ s0.config A k) t.blocks =
        alookup (objAddrA s0.stats.ObjectSize_ s0.config A k) s0.blocks :=
      IH.untouched _ hkne
    rcases alookup_isSome_of_mem (hkeys k (by omega)) with ⟨b0, hb0⟩
    refine ⟨?_, ?_, ?_, ?_, ?_, ?_, ?_, ?_, ?_, ?_, ?_, ?_, ?_, ?_⟩
    · simpa [add_to_page] using IH.config_eq
    · simpa [add_to_page] using IH.pageList_eq
    · simpa [add_to_page] using IH.os_eq
    · simpa [add_to_page] using IH.alloc_eq
    · simpa [add_to_page] using IH.deall_eq
    · simpa [add_to_page] using IH.inuse_eq
    · simpa [add_to_page] using IH.pages_eq
    · simpa [add_to_page] using IH.most_eq
    · have := IH.free_eq
      simp only [add_to_page]
      omega
    · simp only [add_to_page]
      rw [aupdate_map_fst]
      exact IH.keys_eq
    · intro hc
      exact absurd hc (by omega)
    · intro _
      simp only [add_to_page, haddr_eq, Nat.add_sub_cancel]
    · intro j hj
      by_cases hjk : j = k
      · subst hjk
        refine ⟨b0, hb0, ?_⟩
        simp only [add_to_page, haddr_eq]
        rw [alookup_aupdate_self, hlk, hb0, Option.map_some']
        rw [hosr, hcfgr, hallocr]
      · have hjlt : j < k := by omega
        rcases IH.seg j hjlt with ⟨bj, hbj0, hbjt⟩
        refine ⟨bj, hbj0, ?_⟩
        simp only [add_to_page, haddr_eq]
        rw [alookup_aupdate_ne (Ne.symm (hkne j hjlt)), hbjt]
    · intro x hx
      have hxk : x ≠ objAddrA s0.stats.ObjectSize_ s0.config A k :=
        hx k (by omega)
      simp only [add_to_page, haddr_eq]
      rw [alookup_aupdate_ne hxk]
      exact IH.untouched x fun j hj => hx j (by omega)

theorem segLink_leftPad (os : ℕ) (c : OAConfig) (A i : ℕ) (b : Block) :
    (segLink os c A i b).leftPad = b.leftPad := by
  unfold segLink
  split <;> rfl

theorem segLink_rightPad (os : ℕ) (c : OAConfig) (A i : ℕ) (b : Block) :
    (segLink os c A i b).rightPad = b.rightPad := by
  unfold segLink
  split <;> rfl

theorem seg_chain {s0 t : AllocState} {A : ℕ}
    (hf : SegFold s0 A s0.config.ObjectsPerPage_ t) :
    ∀ m, 0 < m → m ≤ s0.config.ObjectsPerPage_ →
      FreeChain t.blocks
        (some (objAddrA s0.stats.ObjectSize_ s0.config A (m - 1)))
        (((List.range m).reverse).map (objAddrA s0.stats.ObjectSize_ s0.config A)) := by
  intro m
  induction m with
  | zero => omega
  | succ m ih =>
    intro _ hle
    rcases hf.seg m (by omega) with ⟨b0, _, hbt⟩
    have hlist : ((List.range (m + 1)).reverse).map
        (objAddrA s0.stats.ObjectSize_ s0.config A) =
        objAddrA s0.stats.ObjectSize_ s0.config A m ::
          ((List.range m).reverse).map (objAddrA s0.stats.ObjectSize_ s0.config A) := by
      rw [List.range_succ]
      simp
    rw [Nat.add_sub_cancel, hlist]
    refine FreeChain.cons hbt ?_
    rw [configure_header_next]
    cases m with
    | zero =>
      simp only [segLink, if_pos rfl]
      exact .nil
    | succ m' =>
      have hnx : (segLink s0.stats.ObjectSize_ s0.config A (m' + 1)
          (segPaint s0.config b0)).next =
          some (objAddrA s0.stats.ObjectSize_ s0.config A m') := by
        simp [segLink]
      rw [hnx]
      exact ih (by omega) (by omega)

theorem allocate_empty_page_ok {s : AllocState} {A : ℕ} {raw : List Block}
    {s0 : AllocState} (h : allocate_empty_page s A raw = .ok s0) :
    s.stats.PagesInUse_ < s.config.MaxPages_ ∧
    s0 = { s with
      pageList := A :: s.pageList
      blocks := ((List.range s.config.ObjectsPerPage_).map fun i =>
        (objAddrA s.stats.ObjectSize_ s.config A i,
          let b := raw.getD i ⟨none, .uninit, [], []⟩
          if s.config.DebugOn_ then
            { b with
              leftPad := List.replicate s.config.PadBytes_ UNALLOCATED_PATTERN
              rightPad := List.replicate s.config.PadBytes_ UNALLOCATED_PATTERN }
          else b)) ++ s.blocks } := by
  unfold allocate_empty_page at h
  by_cases hmax : s.stats.PagesInUse_ ≥ s.config.MaxPages_
  · rw [if_pos hmax] at h
    simp at h
  · rw [if_neg hmax] at h
    exact ⟨by omega, (Except.ok.inj h).symm⟩

theorem allocate_new_page_ok {s : AllocState} {A : ℕ} {raw : List Block}
    {s1 : AllocState} (h : allocate_new_page s A raw = .ok s1) :
    ∃ s0, allocate_empty_page s A raw = .ok s0 ∧ s1 = segment_page s0 := by
  unfold allocate_new_page at h
  cases he : allocate_empty_page s A raw with
  | error e =>
    rw [he] at h
    simp [Except.map] at h
  | ok s0 =>
    rw [he] at h
    simp [Except.map] at h
    exact ⟨s0, rfl, h.symm⟩

theorem inv_new_page {s : AllocState} (inv : INV s) (hfl : s.freeList = none)
    {A : ℕ} (hfresh : FreshPage s A) {raw : List Block} {s1 : AllocState}
    (hok : allocate_new_page s A raw = .ok s1) :
    INV s1 ∧
    s1.freeList = some (objAddrA s.stats.ObjectSize_ s.config A
      (s.config.ObjectsPerPage_ - 1)) ∧
    s1.config = s.config ∧ s1.pageList = A :: s.pageList ∧
    s1.stats.ObjectSize_ = s.stats.ObjectSize_ ∧
    s1.stats.FreeObjects_ = s.stats.FreeObjects_ + s.config.ObjectsPerPage_ ∧
    s1.stats.ObjectsInUse_ = s.stats.ObjectsInUse_ ∧
    s1.stats.Allocations_ = s.stats.Allocations_ ∧
    s1.stats.Deallocations_ = s.stats.Deallocations_ ∧
    s1.stats.MostObjects_ = s.stats.MostObjects_ ∧
    s1.stats.PagesInUse_ = s.stats.PagesInUse_ + 1 := by
  rcases allocate_new_page_ok hok with ⟨s0, hok0, hs1⟩
  rcases allocate_empty_page_ok hok0 with ⟨hmax, hs0⟩
  subst hs0
  subst hs1
  rcases inv.chain with ⟨L0, hch0, _, hlen0, _, hflag0⟩
  rw [hfl] at hch0
  have hL0 : L0 = [] := freeChain_none_nil hch0
  have hfree0 : s.stats.FreeObjects_ = 0 := by
    rw [hL0] at hlen0
    simpa using hlen0.symm
  -- abbreviations
  have h8 : ptrSize ≤ s.stats.ObjectSize_ := inv.os_ge
  have hkeysS : s.blocks.map Prod.fst = blockAddrList s := inv.keysEq
  have hekeys : (((List.range s.config.ObjectsPerPage_).map fun i =>
      (objAddrA s.stats.ObjectSize_ s.config A i,
        let b := raw.getD i ⟨none, .uninit, [], []⟩
        if s.config.DebugOn_ then
          { b with
            leftPad := List.replicate s.config.PadBytes_ UNALLOCATED_PATTERN
            rightPad := List.replicate s.config.PadBytes_ UNALLOCATED_PATTERN }
        else b)).map Prod.fst) =
      (List.range s.config.ObjectsPerPage_).map
        (objAddrA s.stats.ObjectSize_ s.config A) := by
    rw [List.map_map]
    rfl
  have hnewnd : ((List.range s.config.ObjectsPerPage_).map
      (objAddrA s.stats.ObjectSize_ s.config A)).Nodup :=
    newPage_addrs_nodup h8 A _
  have hdisj : ∀ x ∈ (List.range s.config.ObjectsPerPage_).map
      (objAddrA s.stats.ObjectSize_ s.config A), x ∉ blockAddrList s := by
    intro x hx
    rcases List.mem_map.mp hx with ⟨i, hi, rfl⟩
    rw [← hkeysS]
    exact hfresh i (List.mem_range.mp hi)
  refine ?_
  set s0 : AllocState := { s with
    pageList := A :: s.pageList
    blocks := ((List.range s.config.ObjectsPerPage_).map fun i =>
      (objAddrA s.stats.ObjectSize_ s.config A i,
        let b := raw.getD i ⟨none, .uninit, [], []⟩
        if s.config.DebugOn_ then
          { b with
            leftPad := List.replicate s.config.PadBytes_ UNALLOCATED_PATTERN
            rightPad := List.replicate s.config.PadBytes_ UNALLOCATED_PATTERN }
        else b)) ++ s.blocks } with hs0def
  have hkeys0 : s0.blocks.map Prod.fst =
      (List.range s.config.ObjectsPerPage_).map
        (objAddrA s.stats.ObjectSize_ s.config A) ++ s.blocks.map Prod.fst := by
    rw [hs0def]
    simp only [List.map_append]
    rw [hekeys]
  have hkmem : ∀ i < s0.config.ObjectsPerPage_,
      objAddrA s0.stats.ObjectSize_ s0.config A i ∈ s0.blocks.map Prod.fst := by
    intro i hi
    rw [hkeys0]
    exact List.mem_append_left _ (List.mem_map_of_mem _ (List.mem_range.mpr hi))
  have SF := @segment_fold s0 A h8 hkmem s.config.ObjectsPerPage_ (le_refl _)
  set t := (List.range s.config.ObjectsPerPage_).foldl
    (fun t i => add_to_page A i t) s0 with htdef
  have hseg_eq : segment_page s0 =
      { t with stats := { t.stats with PagesInUse_ := t.stats.PagesInUse_ + 1 } } := by
    rfl
  rw [hseg_eq]
  -- facts about t transported to the s-level
  have hcfg1 : t.config = s.config := SF.config_eq
  have hos1 : t.stats.ObjectSize_ = s.stats.ObjectSize_ := SF.os_eq
  have hpl1 : t.pageList = A :: s.pageList := SF.pageList_eq
  have hkeys1 : t.blocks.map Prod.fst =
      (List.range s.config.ObjectsPerPage_).map
        (objAddrA s.stats.ObjectSize_ s.config A) ++ s.blocks.map Prod.fst := by
    rw [SF.keys_eq]
    exact hkeys0
  have hnd1 : (t.blocks.map Prod.fst).Nodup := by
    rw [hkeys1, hkeysS]
    exact List.Nodup.append hnewnd inv.keysNodup hdisj
  set s2 : AllocState :=
    { t with stats := { t.stats with PagesInUse_ := t.stats.PagesInUse_ + 1 } } with hs2def
  have hbal2 : blockAddrList s2 =
      (List.range s.config.ObjectsPerPage_).map
        (objAddrA s.stats.ObjectSize_ s.config A) ++ blockAddrList s := by
    unfold blockAddrList
    have hc2 : s2.config = s.config := hcfg1
    have ho2 : s2.stats.ObjectSize_ = s.stats.ObjectSize_ := hos1
    have hp2 : s2.pageList = A :: s.pageList := hpl1
    rw [hp2, hc2, ho2]
    simp [List.flatMap_cons]
  have hfl2 : s2.freeList =
      some (objAddrA s.stats.ObjectSize_ s.config A
        (s.config.ObjectsPerPage_ - 1)) :=
    SF.fl_pos inv.opp_pos
  have hchain2 : FreeChain s2.blocks s2.freeList
      (((List.range s.config.ObjectsPerPage_).reverse).map
        (objAddrA s.stats.ObjectSize_ s.config A)) := by
    rw [hfl2]
    exact seg_chain SF s.config.ObjectsPerPage_ inv.opp_pos (le_refl _)
  have hchainnd : ((((List.range s.config.ObjectsPerPage_).reverse)).map
      (objAddrA s.stats.ObjectSize_ s.config A)).Nodup := by
    refine List.Nodup.map_on ?_ (List.nodup_reverse.mpr (List.nodup_range _))
    intro i _ j _ hij
    exact objAddrA_inj h8 hij
  have hchainmem : ∀ x ∈ (((List.range s.config.ObjectsPerPage_).reverse)).map
      (objAddrA s.stats.ObjectSize_ s.config A),
      x ∈ (List.range s.config.ObjectsPerPage_).map
        (objAddrA s.stats.ObjectSize_ s.config A) := by
    intro x hx
    rcases List.mem_map.mp hx with ⟨i, hi, rfl⟩
    exact List.mem_map_of_mem _ (List.mem_reverse.mp hi)
  refine ⟨⟨?_, ?_, ?_, ?_, ?_, ?_, ?_, ?_, ?_, ?_, ?_, ?_⟩,
    hfl2, hcfg1, hpl1, hos1, ?_, SF.inuse_eq, SF.alloc_eq, SF.deall_eq,
    SF.most_eq, ?_⟩
  · show s2.config.UseCPPMemManager_ = false
    rw [show s2.config = s.config from hcfg1]
    exact inv.pool
  · show 0 < s2.config.ObjectsPerPage_
    rw [show s2.config = s.config from hcfg1]
    exact inv.opp_pos
  · show s2.config.HBlockSize_ = 0 ↔ s2.config.HBlockType_ = .hbNone
    rw [show s2.config = s.config from hcfg1]
    exact inv.hdr_none_iff
  · show ptrSize ≤ s2.stats.ObjectSize_
    rw [show s2.stats.ObjectSize_ = s.stats.ObjectSize_ from hos1]
    exact inv.os_ge
  · show calculate_page_size s2.stats.ObjectSize_ s2.config ≤ 2 ^ 64
    rw [show s2.stats.ObjectSize_ = s.stats.ObjectSize_ from hos1,
      show s2.config = s.config from hcfg1]
    exact inv.ps_bound
  · show s2.blocks.map Prod.fst = blockAddrList s2
    rw [hbal2, show s2.blocks = t.blocks from rfl, hkeys1, hkeysS]
  · show (blockAddrList s2).Nodup
    rw [hbal2]
    exact List.Nodup.append hnewnd inv.keysNodup hdisj
  · show s2.stats.PagesInUse_ = s2.pageList.length
    have : s2.stats.PagesInUse_ = t.stats.PagesInUse_ + 1 := rfl
    rw [this, SF.pages_eq, show s2.pageList = A :: s.pageList from hpl1]
    simp [inv.pagesCount]
  · -- padsOK
    have hc2 : s2.config = s.config := hcfg1
    rw [hc2]
    intro hdbg kv hkv
    have hdbg' : s.config.DebugOn_ = true := hdbg
    have hkva : alookup kv.1 t.blocks = some kv.2 :=
      alookup_of_mem_nodup hnd1 hkv
    have hk1 : kv.1 ∈ (List.range s.config.ObjectsPerPage_).map
        (objAddrA s.stats.ObjectSize_ s.config A) ++ s.blocks.map Prod.fst := by
      rw [← hkeys1]
      exact List.mem_map.mpr ⟨kv, hkv, rfl⟩
    have hpads_goal : kv.2.leftPad = List.replicate s.config.PadBytes_ PAD_PATTERN ∧
        kv.2.rightPad = List.replicate s.config.PadBytes_ PAD_PATTERN := by
      rcases List.mem_append.mp hk1 with hnew | hold
      · rcases List.mem_map.mp hnew with ⟨i, hi, hai⟩
        have hi' : i < s.config.ObjectsPerPage_ := List.mem_range.mp hi
        rcases SF.seg i hi' with ⟨b0, _, hsegl⟩
        have : alookup kv.1 t.blocks =
            some (configure_header s.config s.stats.Allocations_ none false false false
              (segLink s.stats.ObjectSize_ s.config A i (segPaint s.config b0))) := by
          rw [hai] at hsegl
          exact hsegl
        rw [hkva] at this
        have hkv2 := Option.some.inj this
        rw [hkv2, configure_header_leftPad, configure_header_rightPad,
          segLink_leftPad, segLink_rightPad]
        unfold segPaint
        rw [if_pos hdbg']
        exact ⟨rfl, rfl⟩
      · have hnotnew : ∀ j < s.config.ObjectsPerPage_,
            kv.1 ≠ objAddrA s.stats.ObjectSize_ s.config A j := by
          intro j hj hc
          rw [← hkeysS] at hdisj
          exact hdisj _ (List.mem_map_of_mem _ (List.mem_range.mpr hj)) (hc ▸ hold)
        have huntouched := SF.untouched kv.1 hnotnew
        rw [hkva] at huntouched
        have : alookup kv.1 s0.blocks = alookup kv.1 s.blocks := by
          rw [hs0def]
          refine alookup_append_right ?_ _
          rw [hekeys]
          intro hc
          rcases List.mem_map.mp hc with ⟨j, hj, hja⟩
          exact hnotnew j (List.mem_range.mp hj) hja.symm
        rw [this] at huntouched
        have hmem_old : (kv.1, kv.2) ∈ s.blocks := alookup_pair_mem huntouched.symm
        exact inv.padsOK hdbg' _ hmem_old
    exact hpads_goal
  · -- sumEq
    show s2.stats.FreeObjects_ + s2.stats.ObjectsInUse_ =
      s2.stats.PagesInUse_ * s2.config.ObjectsPerPage_
    have h1 : s2.stats.FreeObjects_ = s.stats.FreeObjects_ + s.config.ObjectsPerPage_ :=
      SF.free_eq
    have h2 : s2.stats.ObjectsInUse_ = s.stats.ObjectsInUse_ := SF.inuse_eq
    have h3 : s2.stats.PagesInUse_ = s.stats.PagesInUse_ + 1 := by
      have : s2.stats.PagesInUse_ = t.stats.PagesInUse_ + 1 := rfl
      rw [this, SF.pages_eq]
    have h4 : s2.config.ObjectsPerPage_ = s.config.ObjectsPerPage_ := by
      rw [show s2.config = s.config from hcfg1]
    have h5 := inv.sumEq
    rw [h1, h2, h3, h4]
    have h6 : (s.stats.PagesInUse_ + 1) * s.config.ObjectsPerPage_ =
        s.stats.PagesInUse_ * s.config.ObjectsPerPage_ + s.config.ObjectsPerPage_ := by
      ring
    omega
  · -- allocCount
    show s2.stats.ObjectsInUse_ + s2.stats.Deallocations_ = s2.stats.Allocations_
    have h2 : s2.stats.ObjectsInUse_ = s.stats.ObjectsInUse_ := SF.inuse_eq
    have h3 : s2.stats.Deallocations_ = s.stats.Deallocations_ := SF.deall_eq
    have h4 : s2.stats.Allocations_ = s.stats.Allocations_ := SF.alloc_eq
    rw [h2, h3, h4]
    exact inv.allocCount
  · -- chain clause
    refine ⟨(((List.range s.config.ObjectsPerPage_).reverse)).map
      (objAddrA s.stats.ObjectSize_ s.config A), hchain2, hchainnd, ?_, ?_, ?_⟩
    · have : s2.stats.FreeObjects_ = s.stats.FreeObjects_ + s.config.ObjectsPerPage_ :=
        SF.free_eq
      rw [this, hfree0]
      simp
    · intro x hx
      show x ∈ blockAddrList s2
      rw [hbal2]
      exact List.mem_append_left _ (hchainmem x hx)
    · have hc2 : s2.config = s.config := hcfg1
      rw [hc2]
      intro hty kv hkv
      have hty' : s.config.HBlockType_ ≠ .hbNone := hbtype_ne_none hty
      have hkva : alookup kv.1 t.blocks = some kv.2 :=
        alookup_of_mem_nodup hnd1 hkv
      have hk1 : kv.1 ∈ (List.range s.config.ObjectsPerPage_).map
          (objAddrA s.stats.ObjectSize_ s.config A) ++ s.blocks.map Prod.fst := by
        rw [← hkeys1]
        exact List.mem_map.mpr ⟨kv, hkv, rfl⟩
      rcases List.mem_append.mp hk1 with hnew | hold
      · rcases List.mem_map.mp hnew with ⟨i, hi, hai⟩
        have hi' : i < s.config.ObjectsPerPage_ := List.mem_range.mp hi
        rcases SF.seg i hi' with ⟨b0, _, hsegl⟩
        have heq2 : alookup kv.1 t.blocks =
            some (configure_header s.config s.stats.Allocations_ none false false false
              (segLink s.stats.ObjectSize_ s.config A i (segPaint s.config b0))) := by
          rw [hai] at hsegl
          exact hsegl
        rw [hkva] at heq2
        have hkv2 := Option.some.inj heq2
        have hleak : check_leak_in_header s.config kv.2 = false := by
          rw [hkv2]
          exact check_leak_configure_init hty' _ _ _ _
        rw [hleak]
        have hin : kv.1 ∈ (((List.range s.config.ObjectsPerPage_).reverse)).map
            (objAddrA s.stats.ObjectSize_ s.config A) := by
          rw [← hai]
          exact List.mem_map_of_mem _ (List.mem_reverse.mpr hi)
        constructor
        · intro hc
          exact absurd hc (by simp)
        · intro hc
          exact absurd hin hc
      · have hnotnew : ∀ j < s.config.ObjectsPerPage_,
            kv.1 ≠ objAddrA s.stats.ObjectSize_ s.config A j := by
          intro j hj hc
          rw [← hkeysS] at hdisj
          exact hdisj _ (List.mem_map_of_mem _ (List.mem_range.mpr hj)) (hc ▸ hold)
        have huntouched := SF.untouched kv.1 hnotnew
        rw [hkva] at huntouched
        have hlook_old : alookup kv.1 s0.blocks = alookup kv.1 s.blocks := by
          rw [hs0def]
          refine alookup_append_right ?_ _
          rw [hekeys]
          intro hc
          rcases List.mem_map.mp hc with ⟨j, hj, hja⟩
          exact hnotnew j (List.mem_range.mp hj) hja.symm
        rw [hlook_old] at huntouched
        have hmem_old : (kv.1, kv.2) ∈ s.blocks := alookup_pair_mem huntouched.symm
        have hflag_old := hflag0 hty _ hmem_old
        rw [hL0] at hflag_old
        have hflag_true : check_leak_in_header s.config kv.2 = true := by
          rw [hflag_old]
          simp
        rw [hflag_true]
        constructor
        · intro _ hc
          rcases List.mem_map.mp hc with ⟨j, hj, hja⟩
          exact hnotnew j (List.mem_range.mp (List.mem_reverse.mp hj)) hja.symm
        · intro _
          rfl
  · show s2.stats.FreeObjects_ = s.stats.FreeObjects_ + s.config.ObjectsPerPage_
    exact SF.free_eq
  · show s2.stats.PagesInUse_ = s.stats.PagesInUse_ + 1
    have : s2.stats.PagesInUse_ = t.stats.PagesInUse_ + 1 := rfl
    rw [this, SF.pages_eq]

/-! ### Invariant preservation: Free of an in-use block -/

theorem finishFree_eq (t : AllocState) (p : ℕ) :
    finishFree t p = { t with
      blocks := aupdate p (fun b =>
        { configure_header t.config t.stats.Allocations_ none false false true b with
          next := t.freeList }) t.blocks
      freeList := some p } := by
  unfold finishFree
  cases hfl : t.freeList with
  | none =>
    dsimp only
    rw [aupdate_aupdate]
  | some q =>
    dsimp only
    rw [aupdate_aupdate]

theorem put_on_unfold (s : AllocState) (p : ℕ)
    (hc : s.config.DebugOn_ = true →
      check_freelist { s with stats := putStats s.stats } p = none) :
    put_on_freelist s p =
      (none, finishFree { s with stats := putStats s.stats } p) := by
  unfold put_on_freelist
  cases hdbg : s.config.DebugOn_ with
  | false => simp [hdbg]
  | true => simp [hdbg, hc hdbg]

theorem inv_put_on {s : AllocState} (inv : INV s) {p : ℕ}
    (hpb : IsBlockAddr s p) (hnc : NotInFreeChain s p) :
    ∃ s', put_on_freelist s p = (none, s') ∧ INV s' ∧
      s'.config = s.config ∧ s'.pageList = s.pageList ∧
      s'.freeList = some p ∧
      s'.stats.ObjectSize_ = s.stats.ObjectSize_ ∧
      s'.stats.FreeObjects_ = s.stats.FreeObjects_ + 1 ∧
      s'.stats.ObjectsInUse_ = s.stats.ObjectsInUse_ - 1 ∧
      s'.stats.Deallocations_ = s.stats.Deallocations_ + 1 ∧
      s'.stats.Allocations_ = s.stats.Allocations_ ∧
      s'.stats.MostObjects_ = s.stats.MostObjects_ ∧
      s'.stats.PagesInUse_ = s.stats.PagesInUse_ ∧
      0 < s.stats.ObjectsInUse_ := by
  rcases inv.chain with ⟨L, hchain, hnd, hlen, hmem, hflag⟩
  have hnp : p ∉ L := hnc L hchain
  have hkeysnd : (s.blocks.map Prod.fst).Nodup := by
    rw [inv.keysEq]
    exact inv.keysNodup
  have hLlt : L.length < (blockAddrList s).length :=
    length_lt_of_not_mem hnd (fun a ha => hmem a ha) hpb hnp
  have hballen : (blockAddrList s).length =
      s.pageList.length * s.config.ObjectsPerPage_ := blockAddrList_length s
  have hinuse_pos : 0 < s.stats.ObjectsInUse_ := by
    have h1 := inv.sumEq
    rw [inv.pagesCount] at h1
    omega
  have hdec : dec32 s.stats.ObjectsInUse_ = s.stats.ObjectsInUse_ - 1 := by
    unfold dec32
    rw [if_neg (by omega)]
  have hkeyp : p ∈ s.blocks.map Prod.fst := by
    rw [inv.keysEq]
    exact hpb
  rcases alookup_isSome_of_mem hkeyp with ⟨b, hb⟩
  have hcheck : s.config.DebugOn_ = true →
      check_freelist { s with stats := putStats s.stats } p = none := by
    intro hdbg
    refine check_freelist_none (L := L) hchain hnd hnp hpb inv.keysEq inv.os_ge
      inv.ps_bound ?_
    intro kv hkv
    exact inv.padsOK hdbg kv hkv
  have hput0 := put_on_unfold s p hcheck
  rw [finishFree_eq] at hput0
  have hput : put_on_freelist s p = (none, { s with
      stats := putStats s.stats
      blocks := aupdate p (fun x =>
        { configure_header s.config s.stats.Allocations_ none false false true x with
          next := s.freeList }) s.blocks
      freeList := some p }) := hput0
  refine ⟨_, hput, ?_, rfl, rfl, rfl, rfl, ?_, ?_, ?_, ?_, ?_, ?_, hinuse_pos⟩
  · -- the invariant at the new state
    have hlookp : alookup p (aupdate p (fun x =>
        { configure_header s.config s.stats.Allocations_ none false false true x with
          next := s.freeList }) s.blocks) =
        some { configure_header s.config s.stats.Allocations_ none false false true b with
          next := s.freeList } := by
      rw [alookup_aupdate_self, hb]
      rfl
    have hstable : ∀ a ∈ L, alookup a (aupdate p (fun x =>
        { configure_header s.config s.stats.Allocations_ none false false true x with
          next := s.freeList }) s.blocks) = alookup a s.blocks := by
      intro a ha
      have : a ≠ p := fun hc => hnp (hc ▸ ha)
      rw [alookup_aupdate_ne this]
    have hchain' : FreeChain (aupdate p (fun x =>
        { configure_header s.config s.stats.Allocations_ none false false true x with
          next := s.freeList }) s.blocks) s.freeList L :=
      hchain.stable hstable
    refine ⟨inv.pool, inv.opp_pos, inv.hdr_none_iff, inv.os_ge, inv.ps_bound, ?_,
      inv.keysNodup, inv.pagesCount, ?_, ?_, ?_, ?_⟩
    · show (aupdate p _ s.blocks).map Prod.fst = _
      rw [aupdate_map_fst]
      exact inv.keysEq
    · intro hdbg kv hkv
      rcases mem_aupdate hkv with ⟨kv0, hm0, he⟩
      have hpads0 := inv.padsOK hdbg kv0 hm0
      by_cases hk : kv0.1 = p
      · rw [he, if_pos hk]
        refine ⟨?_, ?_⟩
        · show (configure_header s.config s.stats.Allocations_ none false false true kv0.2).leftPad = _
          rw [configure_header_leftPad]
          exact hpads0.1
        · show (configure_header s.config s.stats.Allocations_ none false false true kv0.2).rightPad = _
          rw [configure_header_rightPad]
          exact hpads0.2
      · rw [he, if_neg hk]
        exact hpads0
    · show s.stats.FreeObjects_ + 1 + dec32 s.stats.ObjectsInUse_ = _
      dsimp only [putStats]
      rw [hdec]
      have := inv.sumEq
      omega
    · show dec32 s.stats.ObjectsInUse_ + (s.stats.Deallocations_ + 1) = _
      dsimp only [putStats]
      rw [hdec]
      have := inv.allocCount
      omega
    · refine ⟨p :: L, ?_, List.nodup_cons.mpr ⟨hnp, hnd⟩, ?_, ?_, ?_⟩
      · refine FreeChain.cons hlookp ?_
        exact hchain'
      · show (p :: L).length = s.stats.FreeObjects_ + 1
        simp [hlen]
      · intro a ha
        rcases List.mem_cons.mp ha with rfl | ha
        · exact hpb
        · exact hmem a ha
      · intro hty kv hkv
        rcases mem_aupdate hkv with ⟨kv0, hm0, he⟩
        by_cases hk : kv0.1 = p
        · rw [he, if_pos hk]
          have hleak : check_leak_in_header s.config
              { configure_header s.config s.stats.Allocations_ none false false true kv0.2 with
                next := s.freeList } = false := by
            have hsame : check_leak_in_header s.config
                { configure_header s.config s.stats.Allocations_ none false false true kv0.2 with
                  next := s.freeList } =
                check_leak_in_header s.config
                  (configure_header s.config s.stats.Allocations_ none false false true kv0.2) := by
              unfold check_leak_in_header
              rfl
            rw [hsame]
            exact check_leak_configure_freed (hbtype_ne_none hty) _ _ _ _
          rw [hleak]
          constructor
          · intro hc
            exact absurd hc (by simp)
          · intro hc
            have hmemp : kv0.1 ∈ p :: L := by
              rw [hk]
              exact List.mem_cons_self _ _
            exact absurd hmemp hc
        · rw [he, if_neg hk]
          have hold := hflag hty kv0 hm0
          constructor
          · intro hfg hmt
            rcases List.mem_cons.mp hmt with hc | hc
            · exact hk hc
            · exact (hold.mp hfg) hc
          · intro hnt
            exact hold.mpr fun hc => hnt (List.mem_cons_of_mem _ hc)
  · show (putStats s.stats).FreeObjects_ = s.stats.FreeObjects_ + 1
    rfl
  · show (putStats s.stats).ObjectsInUse_ = s.stats.ObjectsInUse_ - 1
    show dec32 s.stats.ObjectsInUse_ = _
    exact hdec
  · rfl
  · rfl
  · rfl
  · rfl

/-! ### The invariant holds at every reached state -/

theorem inv_alloc_step {s s' : AllocState} {p : ℕ} (inv : INV s)
    (h : AllocStep s s' p) :
    INV s' ∧ IsBlockAddr s' p ∧ NotInFreeChain s' p ∧
    s'.config = s.config ∧ s'.stats.ObjectSize_ = s.stats.ObjectSize_ := by
  rcases h with ⟨lbl, rb, A, raw, hall, hfresh⟩
  unfold Allocate at hall
  cases hfl : s.freeList with
  | some h0 =>
    rw [hfl] at hall
    have htake : take_off_freelist lbl rb s = some (s', p) := Except.ok.inj hall
    rcases inv_take_off inv hfl lbl rb with
      ⟨s'', heq, hinv, hba, hnc, hcfg, _, _, hos, _⟩
    rw [heq] at htake
    have h1 : s'' = s' ∧ h0 = p := by
      have := Option.some.inj htake
      exact ⟨congrArg Prod.fst this, congrArg Prod.snd this⟩
    rcases h1 with ⟨rfl, rfl⟩
    exact ⟨hinv, hba, hnc, hcfg, hos⟩
  | none =>
    rw [hfl] at hall
    cases hnp : allocate_new_page s A raw with
    | error e =>
      rw [hnp] at hall
      simp [Except.map] at hall
    | ok s1 =>
      rw [hnp] at hall
      simp only [Except.map] at hall
      have htake : take_off_freelist lbl rb s1 = some (s', p) := Except.ok.inj hall
      obtain ⟨hinv1, hfl1, hcfg1, _, hos1, _⟩ :=
        inv_new_page inv hfl (hfresh hfl) hnp
      rcases inv_take_off hinv1 hfl1 lbl rb with
        ⟨s'', heq, hinv, hba, hnc, hcfg, _, _, hos, _⟩
      rw [heq] at htake
      have h1 : s'' = s' ∧ objAddrA s.stats.ObjectSize_ s.config A
          (s.config.ObjectsPerPage_ - 1) = p := by
        have := Option.some.inj htake
        exact ⟨congrArg Prod.fst this, congrArg Prod.snd this⟩
      rcases h1 with ⟨rfl, hp⟩
      subst hp
      exact ⟨hinv, hba, hnc, hcfg.trans hcfg1, hos.trans hos1⟩

theorem inv_free_step {s s' : AllocState} {p : ℕ} (inv : INV s)
    (h : FreeStep s s' p) : INV s' := by
  rcases h with ⟨hpb, hnc, hput⟩
  rcases inv_put_on inv hpb hnc with ⟨s'', hput2, hinv, _⟩
  rw [hput] at hput2
  have : s' = s'' := congrArg Prod.snd hput2
  rw [this]
  exact hinv

theorem inv_construct {cfg : OAConfig} {os A : ℕ} {raw : List Block}
    {s : AllocState}
    (hpool : cfg.UseCPPMemManager_ = false)
    (hopp : 0 < cfg.ObjectsPerPage_)
    (hhdr : cfg.HBlockSize_ = 0 ↔ cfg.HBlockType_ = .hbNone)
    (hos : ptrSize ≤ os)
    (hps : calculate_page_size os cfg ≤ 2 ^ 64)
    (hok : constructState cfg os A raw = .ok s) : INV s := by
  unfold constructState at hok
  rw [hpool] at hok
  simp only [Bool.false_eq_true, if_false] at hok
  have inv0 : INV (initState cfg os) := by
    refine ⟨hpool, hopp, hhdr, hos, hps, rfl, ?_, rfl, ?_, ?_, rfl, ?_⟩
    · exact List.nodup_nil
    · intro _ kv hkv
      simp [initState] at hkv
    · simp [initState]
    · refine ⟨[], .nil, List.nodup_nil, rfl, ?_, ?_⟩
      · intro a ha
        simp at ha
      · intro _ kv hkv
        simp [initState] at hkv
  have hfresh : FreshPage (initState cfg os) A := by
    intro i _ hc
    simp [initState] at hc
  exact (inv_new_page inv0 rfl hfresh hok).1

theorem reached_inv {s : AllocState} (h : Reached s) : INV s := by
  induction h with
  | construct hpool hopp hhdr hos hps hok => exact inv_construct hpool hopp hhdr hos hps hok
  | alloc _ hstep ih => exact (inv_alloc_step ih hstep).1
  | free _ hstep ih => exact inv_free_step ih hstep

/-! ### Counting helpers for the traversals -/

theorem length_filterMap_guard {α β : Type} (p : α → Bool) (g : α → β) :
    ∀ l : List α,
      (l.filterMap fun i => if p i then some (g i) else none).length = l.countP p := by
  intro l
  induction l with
  | nil => rfl
  | cons x rest ih =>
    by_cases h : p x
    · simp [List.filterMap_cons, h, List.countP_cons, ih]
    · simp [List.filterMap_cons, h, List.countP_cons, ih]

theorem countP_not_add {α : Type} (p : α → Bool) :
    ∀ l : List α, l.countP p + l.countP (fun a => !(p a)) = l.length := by
  intro l
  induction l with
  | nil => rfl
  | cons x rest ih =>
    by_cases h : p x
    · simp [List.countP_cons, h, ← ih]
      omega
    · simp [List.countP_cons, h, ← ih]
      omega

theorem bool_eq_of_iff {x y : Bool} (h : x = true ↔ y = true) : x = y := by
  cases x <;> cases y <;> simp_all

theorem countP_mem_eq_length {L M : List ℕ} (hndL : L.Nodup) (hndM : M.Nodup)
    (hsub : ∀ a ∈ L, a ∈ M) :
    M.countP (fun a => decide (a ∈ L)) = L.length := by
  rw [List.countP_eq_length_filter]
  have hF : (M.filter fun a => decide (a ∈ L)).Nodup := hndM.filter _
  have h1 : (M.filter fun a => decide (a ∈ L)) ⊆ L := by
    intro x hx
    have := List.of_mem_filter hx
    simpa using this
  have h2 : L ⊆ (M.filter fun a => decide (a ∈ L)) := by
    intro x hx
    exact List.mem_filter.mpr ⟨hsub x hx, by simpa using hx⟩
  exact ((hF.subperm h1).antisymm (hndL.subperm h2)).length_eq

theorem dump_length_countP (os : ℕ) (c : OAConfig) (blocks : List (ℕ × Block)) :
    ∀ pl : List ℕ,
      (pl.flatMap (dump_page os c blocks)).length =
        (pl.flatMap fun A =>
          (List.range c.ObjectsPerPage_).map (objAddrA os c A)).countP
          (fun a => c.HBlockSize_ != 0 &&
            (alookup a blocks).elim false (check_leak_in_header c)) := by
  intro pl
  induction pl with
  | nil => rfl
  | cons A rest ih =>
    rw [List.flatMap_cons, List.flatMap_cons, List.length_append, List.countP_append, ih]
    congr 1
    unfold dump_page
    rw [length_filterMap_guard
      (fun i => c.HBlockSize_ != 0 &&
        (alookup (objAddrA os c A i) blocks).elim false (check_leak_in_header c))
      (fun i => blockStartA os c A i + c.HBlockSize_) (List.range c.ObjectsPerPage_)]
    rw [List.countP_map]
    rfl

/-! ### The boundary check as a predicate over pages -/

theorem check_bad_location_go_true_iff (os : ℕ) (c : OAConfig) (p : ℤ) :
    ∀ pages : List ℤ, check_bad_location_go os c p true pages = true ↔
      ∀ A ∈ pages, (check_out_of_page os c p A || check_wrong_offset os c p A) = true := by
  intro pages
  induction pages with
  | nil => simp [check_bad_location_go]
  | cons A rest ih =>
    by_cases h : (check_out_of_page os c p A || check_wrong_offset os c p A) = true
    · rw [check_bad_location_go]
      rw [if_pos h]
      rw [ih]
      constructor
      · intro hall B hB
        rcases List.mem_cons.mp hB with rfl | hB
        · exact h
        · exact hall B hB
      · intro hall B hB
        exact hall B (List.mem_cons_of_mem _ hB)
    · rw [check_bad_location_go]
      rw [if_neg h]
      simp only [Bool.false_eq_true, false_iff]
      intro hall
      exact h (hall A (List.mem_cons_self _ _))

theorem check_bad_location_true_iff (os : ℕ) (c : OAConfig) (p : ℤ)
    (pages : List ℤ) :
    check_bad_location os c p pages = true ↔
      pages ≠ [] ∧ ∀ A ∈ pages,
        (check_out_of_page os c p A || check_wrong_offset os c p A) = true := by
  cases pages with
  | nil => simp [check_bad_location, check_bad_location_go]
  | cons A rest =>
    unfold check_bad_location
    by_cases h : (check_out_of_page os c p A || check_wrong_offset os c p A) = true
    · rw [check_bad_location_go, if_pos h, check_bad_location_go_true_iff]
      constructor
      · intro hall
        refine ⟨by simp, ?_⟩
        intro B hB
        rcases List.mem_cons.mp hB with rfl | hB
        · exact h
        · exact hall B hB
      · intro ⟨_, hall⟩ B hB
        exact hall B (List.mem_cons_of_mem _ hB)
    · rw [check_bad_location_go, if_neg h]
      simp only [Bool.false_eq_true, false_iff]
      intro ⟨_, hall⟩
      exact h (hall A (List.mem_cons_self _ _))

theorem fail_page_iff (os : ℕ) (c : OAConfig) (p A : ℤ) :
    (check_out_of_page os c p A || check_wrong_offset os c p A) = true ↔
      ¬(A ≤ p ∧ p ≤ A + (calculate_page_size os c : ℤ) - (ptrSize : ℤ) ∧
        ((calculate_block_size os c : ℤ) ∣
          (p - (A + (ptrSize : ℤ) + (c.HBlockSize_ : ℤ) + (c.PadBytes_ : ℤ))) %
            (2 ^ 64))) := by
  unfold check_out_of_page check_wrong_offset
  have hdvd : (calculate_block_size os c : ℤ) ∣
      (p - ((A : ℤ) + (ptrSize : ℤ) + (c.HBlockSize_ : ℤ) + (c.PadBytes_ : ℤ))) %
        (2 ^ 64) ↔
      (p - ((A : ℤ) + (ptrSize : ℤ) + (c.HBlockSize_ : ℤ) + (c.PadBytes_ : ℤ))) %
        (2 ^ 64) % (calculate_block_size os c : ℤ) = 0 := by
    constructor
    · exact Int.emod_eq_zero_of_dvd
    · exact Int.dvd_of_emod_eq_zero
  rw [hdvd]
  simp only [Bool.or_eq_true, decide_eq_true_eq, bne_iff_ne, ne_eq]
  constructor
  · rintro (h | h) hc
    · rcases h with h | h
      · omega
      · omega
    · exact h hc.2.2
  · intro h
    by_cases h1 : p < A
    · exact Or.inl (Or.inl h1)
    · by_cases h2 : p > A + (calculate_page_size os c : ℤ) - (ptrSize : ℤ)
      · exact Or.inl (Or.inr h2)
      · refine Or.inr ?_
        intro hmod
        exact h ⟨by omega, by omega, hmod⟩

/-! ### Small step-level lemmas used by the claims -/

theorem put_on_fail (s : AllocState) (p : ℕ) {e : OAErr}
    (hdbg : s.config.DebugOn_ = true)
    (hck : check_freelist { s with stats := putStats s.stats } p = some e) :
    put_on_freelist s p = (some e, { s with stats := putStats s.stats }) := by
  unfold put_on_freelist
  simp [hdbg, hck]

/-! ### Claim C1 -/

/-- C1 (amended): in pool mode with debug on, a `Free` whose validation
fails signals the error and leaves the free list, the page list and all
block state (headers, padding, links) unchanged — but the three
statistics counters `Deallocations_`, `ObjectsInUse_` and `FreeObjects_`
have already been mutated when the error is signalled, because
`put_on_freelist` bumps them before running the validator. -/
theorem C1_failed_free_state {s : AllocState} {p : ℕ} {e : OAErr}
    {s' : AllocState} (h : put_on_freelist s p = (some e, s')) :
    s'.blocks = s.blocks ∧ s'.freeList = s.freeList ∧ s'.pageList = s.pageList ∧
    s'.config = s.config ∧
    s'.stats.Deallocations_ = s.stats.Deallocations_ + 1 ∧
    s'.stats.ObjectsInUse_ = dec32 s.stats.ObjectsInUse_ ∧
    s'.stats.FreeObjects_ = s.stats.FreeObjects_ + 1 ∧
    s'.stats.ObjectSize_ = s.stats.ObjectSize_ ∧
    s'.stats.PageSize_ = s.stats.PageSize_ ∧
    s'.stats.PagesInUse_ = s.stats.PagesInUse_ ∧
    s'.stats.MostObjects_ = s.stats.MostObjects_ ∧
    s'.stats.Allocations_ = s.stats.Allocations_ := by
  unfold put_on_freelist at h
  cases hdbg : s.config.DebugOn_ with
  | false => simp [hdbg] at h
  | true =>
    rcases hck : check_freelist { s with stats := putStats s.stats } p with _ | e2
    · simp [hdbg, hck] at h
    · simp only [hdbg, if_true] at h
      rw [hck] at h
      simp only [Prod.mk.injEq] at h
      rw [← h.2]
      exact ⟨rfl, rfl, rfl, rfl, rfl, rfl, rfl, rfl, rfl, rfl, rfl, rfl⟩

/-- Witness for C1 at the double-free scenario. -/
theorem C1_witness :
    (put_on_freelist sD2 8).2.stats.Deallocations_ = sD2.stats.Deallocations_ + 1 ∧
    (put_on_freelist sD2 8).2.freeList = sD2.freeList ∧
    (put_on_freelist sD2 8).2.blocks = sD2.blocks := by
  have heq : put_on_freelist sD2 8 =
      (some .E_MULTIPLE_FREE, (put_on_freelist sD2 8).2) := rfl
  have h := C1_failed_free_state heq
  exact ⟨h.2.2.2.2.1, h.2.1, h.1⟩

/-- Counterexample to C1 as stated: the failed double free signals
`E_MULTIPLE_FREE` with debug on, yet the statistics after the call differ
from the statistics before it. -/
theorem C1_counterexample :
    sD2.config.DebugOn_ = true ∧
    (put_on_freelist sD2 8).1 = some .E_MULTIPLE_FREE ∧
    (put_on_freelist sD2 8).2.stats ≠ sD2.stats := by
  decide

/-! ### Claim C2 -/

/-- C2: with `MaxPages_ = 0` the guard `PagesInUse_ >= MaxPages_` of
`allocate_empty_page` is always true, so every page allocation — and in
particular the pool-mode constructor's eager first page — signals
`E_NO_PAGES` instead of being unbounded. -/
theorem C2_maxpages_zero_signals_out_of_pages :
    (∀ (s : AllocState) (A : ℕ) (raw : List Block), s.config.MaxPages_ = 0 →
      allocate_empty_page s A raw = .error .E_NO_PAGES) ∧
    (∀ (cfg : OAConfig) (os A : ℕ) (raw : List Block),
      cfg.UseCPPMemManager_ = false → cfg.MaxPages_ = 0 →
      constructState cfg os A raw = .error .E_NO_PAGES) := by
  constructor
  · intro s A raw hm
    unfold allocate_empty_page
    rw [if_pos (by omega)]
  · intro cfg os A raw hpool hm
    unfold constructState
    rw [hpool]
    simp only [Bool.false_eq_true, if_false]
    unfold allocate_new_page allocate_empty_page
    have h0 : (initState cfg os).stats.PagesInUse_ ≥ (initState cfg os).config.MaxPages_ := by
      simp [initState, hm]
    rw [if_pos h0]
    simp [Except.map]

/-- Witness for C2: pool-mode construction with `MaxPages_ = 0` signals
`E_NO_PAGES` immediately. -/
theorem C2_witness :
    constructState ⟨false, 1, 0, false, 0, .hbNone, 0, 0⟩ 8 0 [rawB] =
      .error .E_NO_PAGES :=
  C2_maxpages_zero_signals_out_of_pages.2 _ 8 0 [rawB] rfl rfl

/-! ### Claim C3 -/

/-- C3 (amended): a successful pop of the free list decrements the free
count, increments the in-use count and the cumulative allocation count by
one — and unconditionally increments the peak counter by one, rather than
setting it to the maximum of its previous value and the new in-use
count. -/
theorem C3_allocate_stats {lbl : Option String} {rb : Bool} {s s' : AllocState} {p : ℕ}
    (h : take_off_freelist lbl rb s = some (s', p)) :
    s'.stats.FreeObjects_ = dec32 s.stats.FreeObjects_ ∧
    (0 < s.stats.FreeObjects_ →
      s'.stats.FreeObjects_ = s.stats.FreeObjects_ - 1) ∧
    s'.stats.ObjectsInUse_ = s.stats.ObjectsInUse_ + 1 ∧
    s'.stats.Allocations_ = s.stats.Allocations_ + 1 ∧
    s'.stats.MostObjects_ = s.stats.MostObjects_ + 1 := by
  unfold take_off_freelist at h
  cases hfl : s.freeList with
  | none =>
    rw [hfl] at h
    simp at h
  | some h0 =>
    rw [hfl] at h
    simp only [Option.some.injEq, Prod.mk.injEq] at h
    rw [← h.1]
    refine ⟨rfl, ?_, rfl, rfl, rfl⟩
    intro hpos
    show dec32 s.stats.FreeObjects_ = _
    unfold dec32
    rw [if_neg (by omega)]

/-- Witness for C3 at a concrete allocation. -/
theorem C3_witness :
    s10b.stats.FreeObjects_ = dec32 sInit.stats.FreeObjects_ ∧
    s10b.stats.ObjectsInUse_ = sInit.stats.ObjectsInUse_ + 1 ∧
    s10b.stats.Allocations_ = sInit.stats.Allocations_ + 1 ∧
    s10b.stats.MostObjects_ = sInit.stats.MostObjects_ + 1 := by
  have heq : take_off_freelist none false sInit = some (s10b, 8) := rfl
  have h := C3_allocate_stats heq
  exact ⟨h.1, h.2.2.1, h.2.2.2.1, h.2.2.2.2⟩

/-- Counterexample to C3 as stated: after allocate, free, allocate, the
peak counter is 2 although the maximum of its previous value and the new
in-use count is 1. -/
theorem C3_counterexample :
    (take_off_freelist none false s10c).isSome = true ∧
    s3d.stats.MostObjects_ = 2 ∧
    max s10c.stats.MostObjects_ s3d.stats.ObjectsInUse_ = 1 := by
  decide

/-! ### Claim C4 -/

/-- C4: for every pool-mode allocator and every sequence of successful
`Allocate`/`Free` calls (never exceeding the configured capacity, each
`Free` returning an in-use pointer), the equality
`FreeObjects_ + ObjectsInUse_ = PagesInUse_ * ObjectsPerPage_` holds
between any two calls. -/
theorem C4_stats_invariant {s : AllocState} (h : Reached s) :
    s.stats.FreeObjects_ + s.stats.ObjectsInUse_ =
      s.stats.PagesInUse_ * s.config.ObjectsPerPage_ :=
  (reached_inv h).sumEq

theorem reached_sInit : Reached sInit :=
  @Reached.construct cfgP 8 0 [rawB] sInit rfl (by decide) (by decide)
    (by decide) (by decide) rfl

/-- Witness for C4 at a freshly constructed allocator. -/
theorem C4_witness :
    sInit.stats.FreeObjects_ + sInit.stats.ObjectsInUse_ =
      sInit.stats.PagesInUse_ * sInit.config.ObjectsPerPage_ :=
  C4_stats_invariant reached_sInit

/-! ### Claim C5 -/

/-- C5 (amended): with padding configured, debug mode on **and a header
variant configured (non-zero header size)**, a block whose padding byte
past the object's declared size was overwritten is reported and counted
by `ValidatePages`, and a `Free` of that block signals
`E_CORRUPTED_BLOCK`.  (Without a header, `ValidatePages` skips every
block and reports nothing, while `Free` still signals the error.) -/
theorem C5_corruption_detected {s : AllocState} {A i j : ℕ} {b : Block}
    (hdbg : s.config.DebugOn_ = true)
    (hpad : s.config.PadBytes_ ≠ 0)
    (hhdr : s.config.HBlockSize_ ≠ 0)
    (hA : A ∈ s.pageList) (hi : i < s.config.ObjectsPerPage_)
    (hb : alookup (objAddrA s.stats.ObjectSize_ s.config A i) s.blocks = some b)
    (hj : j < s.config.PadBytes_)
    (hcor : b.rightPad.getD j 0 ≠ PAD_PATTERN) :
    (objAddrA s.stats.ObjectSize_ s.config A i + s.config.HBlockSize_) ∈
      (ValidatePages s).2 ∧
    1 ≤ (ValidatePages s).1 ∧
    (put_on_freelist s (objAddrA s.stats.ObjectSize_ s.config A i)).1 =
      some .E_CORRUPTED_BLOCK := by
  have hbody : (b.leftPad.getD j 0 != PAD_PATTERN ||
      b.rightPad.getD j 0 != PAD_PATTERN) = true :=
    Bool.or_inr (by simpa [bne_iff_ne] using hcor)
  have hguard : (s.config.HBlockSize_ != 0 &&
      ((alookup (objAddrA s.stats.ObjectSize_ s.config A i) s.blocks).elim false
        fun blk => (List.range s.config.PadBytes_).any fun k =>
          blk.leftPad.getD k 0 != PAD_PATTERN ||
          blk.rightPad.getD k 0 != PAD_PATTERN)) = true := by
    refine Bool.and_intro (by simpa [bne_iff_ne] using hhdr) ?_
    rw [hb]
    exact List.any_eq_true.mpr ⟨j, List.mem_range.mpr hj, hbody⟩
  have hmem : (objAddrA s.stats.ObjectSize_ s.config A i + s.config.HBlockSize_) ∈
      (ValidatePages s).2 := by
    show _ ∈ s.pageList.flatMap (validate_page s.stats.ObjectSize_ s.config s.blocks)
    refine List.mem_flatMap.mpr ⟨A, hA, ?_⟩
    unfold validate_page
    refine List.mem_filterMap.mpr ⟨i, List.mem_range.mpr hi, ?_⟩
    rw [if_pos hguard]
  refine ⟨hmem, ?_, ?_⟩
  · have hne : (ValidatePages s).2 ≠ [] := List.ne_nil_of_mem hmem
    have hpos : 0 < (ValidatePages s).2.length := List.length_pos.mpr hne
    have heq : (ValidatePages s).1 = (ValidatePages s).2.length := rfl
    omega
  · have hck : check_freelist { s with stats := putStats s.stats }
        (objAddrA s.stats.ObjectSize_ s.config A i) = some .E_CORRUPTED_BLOCK := by
      unfold check_freelist
      have hcond : (({ s with stats := putStats s.stats } : AllocState).config.PadBytes_ != 0 &&
          check_corruption_at { s with stats := putStats s.stats }
            (objAddrA s.stats.ObjectSize_ s.config A i)) = true := by
        refine Bool.and_intro (by simpa [bne_iff_ne] using hpad) ?_
        unfold check_corruption_at
        rw [show alookup (objAddrA s.stats.ObjectSize_ s.config A i)
          ({ s with stats := putStats s.stats } : AllocState).blocks = some b from hb]
        exact List.any_eq_true.mpr ⟨j, List.mem_range.mpr hj, hbody⟩
      rw [if_pos hcond]
    rw [put_on_fail s _ hdbg hck]

/-- Witness for the amended C5 at a concrete corrupted block with a basic
header.  The state has one in-use block whose right padding was
overwritten. -/
theorem C5_witness :
    ((objAddrA 8 cfgB2D 0 0 + cfgB2D.HBlockSize_) ∈ (ValidatePages sB2Dr).2 ∧
      1 ≤ (ValidatePages sB2Dr).1 ∧
      (put_on_freelist sB2Dr (objAddrA 8 cfgB2D 0 0)).1 = some .E_CORRUPTED_BLOCK) := by
  have hb : alookup (objAddrA 8 cfgB2D 0 0) sB2Dr.blocks =
      some ⟨none, .basic 1 true, [255, 255], [0, 255]⟩ := by decide
  exact @C5_corruption_detected sB2Dr 0 0 0
    ⟨none, .basic 1 true, [255, 255], [0, 255]⟩ (by decide) (by decide)
    (by decide) (by decide) (by decide) hb (by decide) (by decide)

/-- Counterexample to C5 as stated: with padding configured and debug on
but **no header**, the corrupted in-use block at address 9 is invisible to
`ValidatePages` (no callback, count 0), although `Free` still signals
`E_CORRUPTED_BLOCK`. -/
theorem C5_counterexample :
    cfg5.PadBytes_ ≠ 0 ∧ cfg5.DebugOn_ = true ∧
    sC5r.stats.ObjectsInUse_ = 1 ∧
    ValidatePages sC5r = (0, []) ∧
    (put_on_freelist sC5r 9).1 = some .E_CORRUPTED_BLOCK := by
  decide

/-! ### Claim C6 -/

/-- C6: in pool mode with debug mode on, every pointer returned by a
successful `Allocate` from a reached state can be freed once
successfully, and freeing it a second time (with no intervening
`Allocate`) signals `E_MULTIPLE_FREE` — whether padding bytes are
configured or not. -/
theorem C6_double_free {s s1 : AllocState} {p : ℕ}
    (hre : Reached s) (hdbg : s.config.DebugOn_ = true)
    (hstep : AllocStep s s1 p) :
    (put_on_freelist s1 p).1 = none ∧
    (put_on_freelist (put_on_freelist s1 p).2 p).1 = some .E_MULTIPLE_FREE := by
  have inv := reached_inv hre
  obtain ⟨hinv1, hba, hnc, hcfg1, _⟩ := inv_alloc_step inv hstep
  rcases inv_put_on hinv1 hba hnc with
    ⟨s2, hput, hinv2, hcfg2, _, hfl2, _⟩
  rw [hput]
  refine ⟨rfl, ?_⟩
  have hdbg2 : s2.config.DebugOn_ = true := by
    rw [hcfg2, hcfg1]
    exact hdbg
  rcases hinv2.chain with ⟨L2, hch2, hnd2, _, hmem2, _⟩
  have hpmem : p ∈ L2 := by
    rw [hfl2] at hch2
    exact hch2.head_mem
  have hkey2 : p ∈ s2.blocks.map Prod.fst := by
    rw [hinv2.keysEq]
    exact hmem2 p hpmem
  rcases alookup_isSome_of_mem hkey2 with ⟨b2, hb2⟩
  have hpads2 := hinv2.padsOK hdbg2 _ (alookup_pair_mem hb2)
  have hck : check_freelist { s2 with stats := putStats s2.stats } p =
      some .E_MULTIPLE_FREE := by
    unfold check_freelist
    have hcorr : check_corruption_at { s2 with stats := putStats s2.stats } p = false :=
      @check_corruption_at_clean { s2 with stats := putStats s2.stats } p b2
        hb2 hpads2.1 hpads2.2
    have hmulti : check_multiple_free { s2 with stats := putStats s2.stats } p = true := by
      have hch2' : FreeChain ({ s2 with stats := putStats s2.stats } : AllocState).blocks
          ({ s2 with stats := putStats s2.stats } : AllocState).freeList L2 := hch2
      rw [check_multiple_free_eq hch2' hnd2 p]
      rw [show L2.contains p = L2.elem p from rfl, List.elem_eq_mem]
      simp [hpmem]
    rw [if_neg (by simp [hcorr]), if_pos hmulti]
  rw [put_on_fail s2 p hdbg2 hck]

theorem reached_sDInit : Reached sDInit :=
  @Reached.construct cfgD 8 0 [rawB] sDInit rfl (by decide) (by decide)
    (by decide) (by decide) rfl

theorem allocStep_sDInit : AllocStep sDInit sD1 8 := by
  refine ⟨none, false, 0, [rawB], rfl, ?_⟩
  intro hc
  exact absurd hc (by decide)

/-- Witness for C6 at a concrete allocator with debug mode on. -/
theorem C6_witness :
    (put_on_freelist sD1 8).1 = none ∧
    (put_on_freelist (put_on_freelist sD1 8).2 8).1 = some .E_MULTIPLE_FREE :=
  C6_double_free reached_sDInit rfl allocStep_sDInit

/-! ### Claim C7 -/

/-- C7 (amended): the debug-mode validation run by `Free` signals
`E_BAD_BOUNDARY` if and only if the corruption check (run first, when
padding is configured) finds no mismatch, the pointer is not on the free
list, and the (non-empty) page list has no page satisfying both
conditions: the pointer lies in the page's range (at or above the page
start, at or below `page + pageSize - sizeof(void*)`) and its offset from
the page's first object address — reduced modulo `2^64`, because the
source computes the modulo after converting the signed difference to the
unsigned 64-bit `size_t` — is an exact multiple of the block stride.  As
stated the claim is false: the corruption or double-free check can
preempt the boundary check. -/
theorem C7_bad_boundary_iff (mem : ℤ → ℕ) (os : ℕ) (c : OAConfig)
    (freeL pages : List ℤ) (p : ℤ) :
    check_freelist_mem mem os c freeL pages p = some .E_BAD_BOUNDARY ↔
      ¬(c.PadBytes_ ≠ 0 ∧ check_corruption_mem mem os c p = true) ∧
      p ∉ freeL ∧ pages ≠ [] ∧
      ∀ A ∈ pages, ¬(A ≤ p ∧ p ≤ A + (calculate_page_size os c : ℤ) - (ptrSize : ℤ) ∧
        ((calculate_block_size os c : ℤ) ∣
          (p - (A + (ptrSize : ℤ) + (c.HBlockSize_ : ℤ) + (c.PadBytes_ : ℤ))) %
            (2 ^ 64))) := by
  unfold check_freelist_mem check_multiple_free_list
  by_cases h1 : (c.PadBytes_ != 0 && check_corruption_mem mem os c p) = true
  · rw [if_pos h1]
    simp only [Bool.and_eq_true, bne_iff_ne, ne_eq] at h1
    constructor
    · intro hc
      exact absurd hc (by decide)
    · rintro ⟨hnc, _⟩
      exact absurd h1 hnc
  · rw [if_neg h1]
    by_cases h2 : freeL.contains p = true
    · rw [if_pos h2]
      have hp2 : p ∈ freeL := by
        rw [show freeL.contains p = freeL.elem p from rfl, List.elem_eq_mem] at h2
        simpa using h2
      constructor
      · intro hc
        exact absurd hc (by decide)
      · rintro ⟨_, hnp, _⟩
        exact absurd hp2 hnp
    · rw [if_neg h2]
      have hnp2 : p ∉ freeL := by
        intro hc
        apply h2
        rw [show freeL.contains p = freeL.elem p from rfl, List.elem_eq_mem]
        simp [hc]
      by_cases h3 : check_bad_location os c p pages = true
      · rw [if_pos h3]
        rcases (check_bad_location_true_iff os c p pages).mp h3 with ⟨hne, hall⟩
        constructor
        · intro _
          refine ⟨?_, hnp2, hne, ?_⟩
          · intro hcc
            exact h1 (Bool.and_intro (by simpa [bne_iff_ne] using hcc.1) hcc.2)
          · intro A hA
            exact (fail_page_iff os c p A).mp (hall A hA)
        · intro _
          rfl
      · rw [if_neg h3]
        constructor
        · intro hc
          exact absurd hc (by simp)
        · rintro ⟨_, _, hne, hall⟩
          exfalso
          apply h3
          refine (check_bad_location_true_iff os c p pages).mpr ⟨hne, ?_⟩
          intro A hA
          exact (fail_page_iff os c p A).mpr (hall A hA)

/-- Counterexample to C7 as stated: a pointer outside every page (no page
satisfies the claim's two conditions) whose surrounding memory does not
hold the pad sentinel signals `E_CORRUPTED_BLOCK`, not `E_BAD_BOUNDARY`,
because the corruption check runs first on the raw bytes around the
pointer. -/
theorem C7_counterexample :
    check_freelist_mem (fun _ => 0) 8 cfg7 [] [100] 500 ≠ some .E_BAD_BOUNDARY ∧
    check_freelist_mem (fun _ => 0) 8 cfg7 [] [100] 500 = some .E_CORRUPTED_BLOCK ∧
    (∀ A ∈ ([100] : List ℤ), ¬(A ≤ 500 ∧
      (500 : ℤ) ≤ A + (calculate_page_size 8 cfg7 : ℤ) - (ptrSize : ℤ) ∧
      ((calculate_block_size 8 cfg7 : ℤ) ∣
        (500 - (A + (ptrSize : ℤ) + (cfg7.HBlockSize_ : ℤ) + (cfg7.PadBytes_ : ℤ))) %
          (2 ^ 64)))) := by
  decide

/-! ### Claim C8 -/

/-- C8 (amended): in pool mode with a **basic or extended** header
configured, `DumpMemoryInUse` invokes its callback once per in-use block
and returns that count, which equals the in-use statistic — and, since
each successful `Allocate` bumps `Allocations_` once and each successful
`Free` bumps `Deallocations_` once, equals the number of allocations
minus the number of frees.  With no header configured it invokes no
callback and returns 0.  The external variant is excluded: there the
leak check reinterprets the header slot itself as the metadata record
and reads a byte of the stored pointer without dereferencing it, so an
in-use block can go unreported. -/
theorem C8_dump_counts {s : AllocState} (hre : Reached s) :
    ((s.config.HBlockType_ = .hbBasic ∨ s.config.HBlockType_ = .hbExtended) →
      (DumpMemoryInUse s).1 = s.stats.Allocations_ - s.stats.Deallocations_ ∧
      (DumpMemoryInUse s).1 = s.stats.ObjectsInUse_ ∧
      (DumpMemoryInUse s).2.length = s.stats.ObjectsInUse_) ∧
    (s.config.HBlockSize_ = 0 → DumpMemoryInUse s = (0, [])) := by
  have inv := reached_inv hre
  constructor
  · intro hbe
    have hhdr : s.config.HBlockSize_ ≠ 0 := by
      intro hc
      exact hbtype_ne_none hbe (inv.hdr_none_iff.mp hc)
    rcases inv.chain with ⟨L, hch, hnd, hlen, hmem, hflag⟩
    have hflag' := hflag hbe
    have hlen1 : (DumpMemoryInUse s).2.length =
        (blockAddrList s).countP
          (fun a => s.config.HBlockSize_ != 0 &&
            (alookup a s.blocks).elim false (check_leak_in_header s.config)) := by
      show (s.pageList.flatMap (dump_page s.stats.ObjectSize_ s.config s.blocks)).length = _
      rw [dump_length_countP]
      rfl
    have hlen2 : (blockAddrList s).countP
        (fun a => s.config.HBlockSize_ != 0 &&
          (alookup a s.blocks).elim false (check_leak_in_header s.config)) =
        (blockAddrList s).countP (fun a => !(decide (a ∈ L))) := by
      refine List.countP_congr ?_
      intro a ha
      rw [show (s.config.HBlockSize_ != 0) = true from by simpa [bne_iff_ne] using hhdr,
        Bool.true_and]
      have hkey : a ∈ s.blocks.map Prod.fst := by
        rw [inv.keysEq]
        exact ha
      rcases alookup_isSome_of_mem hkey with ⟨b, hb⟩
      rw [hb]
      have hiff := hflag' _ (alookup_pair_mem hb)
      constructor
      · intro h
        simp [hiff.mp h]
      · intro h
        refine hiff.mpr ?_
        intro hc
        simp [hc] at h
    have hcomp := countP_not_add (fun a => decide (a ∈ L)) (blockAddrList s)
    have hLcount : (blockAddrList s).countP (fun a => decide (a ∈ L)) = L.length :=
      countP_mem_eq_length hnd inv.keysNodup (fun a ha => hmem a ha)
    have hballen := blockAddrList_length s
    have hsum := inv.sumEq
    rw [inv.pagesCount] at hsum
    have halloc := inv.allocCount
    have hfin : (DumpMemoryInUse s).2.length = s.stats.ObjectsInUse_ := by
      rw [hlen1, hlen2]
      omega
    have h1 : (DumpMemoryInUse s).1 = (DumpMemoryInUse s).2.length := rfl
    exact ⟨by omega, by omega, hfin⟩
  · intro hhdr
    have hpage : ∀ A, dump_page s.stats.ObjectSize_ s.config s.blocks A = [] := by
      intro A
      unfold dump_page
      rw [List.filterMap_eq_nil_iff]
      intro i _
      rw [if_neg (by simp [hhdr])]
    have hps : s.pageList.flatMap (dump_page s.stats.ObjectSize_ s.config s.blocks) = [] := by
      rw [List.flatMap_eq_nil_iff]
      intro A _
      exact hpage A
    show ((s.pageList.flatMap (dump_page s.stats.ObjectSize_ s.config s.blocks)).length,
      s.pageList.flatMap (dump_page s.stats.ObjectSize_ s.config s.blocks)) = (0, [])
    rw [hps]
    rfl

theorem reached_sB1 : Reached sB1 := by
  have h0 : Reached sBInit :=
    @Reached.construct cfgB 8 0 [rawB] sBInit rfl (by decide) (by decide)
      (by decide) (by decide) rfl
  refine @Reached.alloc sBInit sB1 13 h0 ?_
  refine ⟨none, false, 0, [rawB], rfl, ?_⟩
  intro hc
  exact absurd hc (by decide)

/-- Witness for the amended C8 after one allocation under a basic
header. -/
theorem C8_witness :
    (DumpMemoryInUse sB1).1 = sB1.stats.Allocations_ - sB1.stats.Deallocations_ ∧
    (DumpMemoryInUse sB1).1 = sB1.stats.ObjectsInUse_ := by
  have h := (C8_dump_counts reached_sB1).1 (by decide)
  exact ⟨h.1, h.2.1⟩

/-- Counterexample to C8 as stated: with the external header variant
(a configured, pointer-sized header), one object allocated and none
freed, the in-use statistic is 1 but `DumpMemoryInUse` invokes no
callback and returns 0 — the slot-reinterpreting read hits a zero byte
of the stored record pointer. -/
theorem C8_counterexample :
    cfgE.HBlockType_ = .hbExternal ∧ cfgE.HBlockSize_ ≠ 0 ∧
    sE1.stats.Allocations_ = 1 ∧ sE1.stats.Deallocations_ = 0 ∧
    sE1.stats.ObjectsInUse_ = 1 ∧
    DumpMemoryInUse sE1 = (0, []) := by
  decide

/-! ### Claim C9 -/

/-- C9 (amended): every pointer `DumpMemoryInUse` passes to its callback
is the block start plus the header size — the object pointer **minus the
padding width** (they coincide only when no padding is configured) — and
every pointer `ValidatePages` passes is the object pointer **plus the
header size**.  Neither traversal passes the object pointer itself in
general. -/
theorem C9_callback_pointers (s : AllocState) :
    (∀ q ∈ (DumpMemoryInUse s).2, ∃ A ∈ s.pageList, ∃ i < s.config.ObjectsPerPage_,
      q + s.config.PadBytes_ = objAddrA s.stats.ObjectSize_ s.config A i) ∧
    (∀ q ∈ (ValidatePages s).2, ∃ A ∈ s.pageList, ∃ i < s.config.ObjectsPerPage_,
      q = objAddrA s.stats.ObjectSize_ s.config A i + s.config.HBlockSize_) := by
  constructor
  · intro q hq
    rcases List.mem_flatMap.mp hq with ⟨A, hA, hqA⟩
    unfold dump_page at hqA
    rcases List.mem_filterMap.mp hqA with ⟨i, hi, hif⟩
    split at hif
    · refine ⟨A, hA, i, List.mem_range.mp hi, ?_⟩
      have hq' := Option.some.inj hif
      rw [← hq']
      unfold objAddrA
      omega
    · exact absurd hif (by simp)
  · intro q hq
    rcases List.mem_flatMap.mp hq with ⟨A, hA, hqA⟩
    unfold validate_page at hqA
    rcases List.mem_filterMap.mp hqA with ⟨i, hi, hif⟩
    split at hif
    · refine ⟨A, hA, i, List.mem_range.mp hi, ?_⟩
      exact (Option.some.inj hif).symm
    · exact absurd hif (by simp)

/-- Witness for the amended C9 at a concrete traversal. -/
theorem C9_witness :
    ∃ A ∈ sB2a.pageList, ∃ i < sB2a.config.ObjectsPerPage_,
      (13 : ℕ) + sB2a.config.PadBytes_ =
        objAddrA sB2a.stats.ObjectSize_ sB2a.config A i :=
  (C9_callback_pointers sB2a).1 13 (by decide)

/-- Counterexample to C9 as stated: with a basic header and two padding
bytes, `Allocate` returns the object pointer 15 but `DumpMemoryInUse`
passes 13 (the object pointer minus the padding width) to its
callback. -/
theorem C9_counterexample :
    take_off_freelist none false sB2init = some (sB2a, 15) ∧
    (DumpMemoryInUse sB2a).2 = [13] ∧
    (13 : ℕ) ≠ 15 := by
  decide

/-! ### Claim C10 -/

theorem freeChain_no_nodup_of_self_loop {blocks : List (ℕ × Block)} {a : ℕ}
    {b : Block} (hb : alookup a blocks = some b) (hself : b.next = some a) :
    ∀ L, FreeChain blocks (some a) L → ¬L.Nodup := by
  intro L hc
  cases hc with
  | cons hb' hct =>
    rw [hb] at hb'
    cases hb'
    rw [hself] at hct
    intro hnd
    exact (List.nodup_cons.mp hnd).1 hct.head_mem

/-- C10 (amended): after construction and any sequence of successful
`Allocate`/`Free` calls in which every `Free` receives a pointer
currently in use (the borrow contract of the spec's resource model —
always enforced by the validator when debug mode is on), the free list is
a nil-terminated, acyclic chain whose node count equals the
`FreeObjects_` statistic. -/
theorem C10_freelist_wellformed {s : AllocState} (h : Reached s) :
    ∃ L, FreeChain s.blocks s.freeList L ∧ L.Nodup ∧
      L.length = s.stats.FreeObjects_ := by
  rcases (reached_inv h).chain with ⟨L, h1, h2, h3, _⟩
  exact ⟨L, h1, h2, h3⟩

/-- Witness for the amended C10 at a freshly constructed allocator. -/
theorem C10_witness :
    ∃ L, FreeChain sInit.blocks sInit.freeList L ∧ L.Nodup ∧
      L.length = sInit.stats.FreeObjects_ :=
  C10_freelist_wellformed reached_sInit

/-- Counterexample to C10 as stated: with debug mode off, a double free
is a successful call (no error is signalled), after which `FreeObjects_`
is 2 but the free list is a self-loop — no nil-terminated duplicate-free
chain matches the statistic. -/
theorem C10_counterexample :
    (take_off_freelist none false sInit).isSome = true ∧
    (put_on_freelist s10b 8).1 = none ∧
    (put_on_freelist s10c 8).1 = none ∧
    s10d.stats.FreeObjects_ = 2 ∧
    ¬∃ L, FreeChain s10d.blocks s10d.freeList L ∧ L.Nodup ∧
      L.length = s10d.stats.FreeObjects_ := by
  refine ⟨rfl, rfl, rfl, rfl, ?_⟩
  rintro ⟨L, hc, hnd, _⟩
  have hb : alookup 8 s10d.blocks = some ⟨some 8, .uninit, [], []⟩ := by decide
  have hfl : s10d.freeList = some 8 := rfl
  rw [hfl] at hc
  exact freeChain_no_nodup_of_self_loop hb rfl L hc hnd
